import Mathlib

/-!
Verification development for the ym-player repository (Go).

The Go sources are shallowly embedded: machine integers are modelled as
`Nat` (unsigned) or `Int` (signed) with explicit reduction modulo `2^w`
where the Go program computes in a `w`-bit type.  Go's truncating signed
division `/` is `Int.tdiv`; Go's `>>` on signed values (arithmetic shift)
is floor division, i.e. Lean's `/` on `Int`; Go's `&` with a low bit mask
on a signed value equals the non-negative remainder `%`.  A Go division
by zero is a run-time panic; the embedding adopts Lean's `x / 0 = 0`
convention at such points, and every theorem below that depends on a
division carries hypotheses keeping the divisor non-zero.
-/

/-- Reduce to an unsigned 32-bit value. -/
def u32 (n : ℕ) : ℕ := n % 4294967296

/-- Reduce to an unsigned 16-bit value. -/
def u16 (n : ℕ) : ℕ := n % 65536

/-- Reduce to an unsigned 8-bit value. -/
def u8 (n : ℕ) : ℕ := n % 256

/-- Reinterpret an unsigned 32-bit value as a signed 32-bit value
(two's complement). -/
def toS32 (n : ℕ) : ℤ :=
  if n % 4294967296 < 2147483648 then (n % 4294967296 : ℤ)
  else (n % 4294967296 : ℤ) - 4294967296

/-- Reinterpret an unsigned 16-bit value as a signed 16-bit value. -/
def toS16 (n : ℕ) : ℤ :=
  if n % 65536 < 32768 then (n % 65536 : ℤ) else (n % 65536 : ℤ) - 65536

/-- Convert a (wide) signed value to `uint32`, as a Go conversion does:
keep the low 32 bits. -/
def u32I (x : ℤ) : ℕ := (x % 4294967296).toNat

/-- Convert a (wide) signed value to `uint16`: keep the low 16 bits. -/
def u16I (x : ℤ) : ℕ := (x % 65536).toNat

/-- Truncate a (wide) signed value to `int32` two's-complement. -/
def i32I (x : ℤ) : ℤ := toS32 (u32I x)

/-- `int32` bitwise AND between a signed 32-bit value and an unsigned
32-bit value reinterpreted as `int32` (as in `YmInt(vol) & YmInt(bt)`):
performed on the 32-bit two's-complement representations. -/
def i32land (a : ℤ) (b : ℕ) : ℤ := toS32 (u32I a &&& u32 b)

/-- Test bit `b` of the 32-bit two's-complement representation of `x`
(`x & (1<<b) != 0` in Go). -/
def iBit (x : ℤ) (b : ℕ) : Bool := ((x % 4294967296) / (2 ^ b : ℤ)) % 2 = 1

/- ======================================================================
   YM2149 chip emulator (`CYm2149Ex`, file `main_gui.go` second part).
   ====================================================================== -/

/-- Envelope shape source patterns (`envWave`), 16 rows of 8 entries. -/
def envWave : List (List ℤ) :=
  [[1, 0, 0, 0, 0, 0, 0, 0], [1, 0, 0, 0, 0, 0, 0, 0],
   [1, 0, 0, 0, 0, 0, 0, 0], [1, 0, 0, 0, 0, 0, 0, 0],
   [0, 1, 0, 0, 0, 0, 0, 0], [0, 1, 0, 0, 0, 0, 0, 0],
   [0, 1, 0, 0, 0, 0, 0, 0], [0, 1, 0, 0, 0, 0, 0, 0],
   [1, 0, 1, 0, 1, 0, 1, 0], [1, 0, 0, 0, 0, 0, 0, 0],
   [1, 0, 0, 1, 1, 0, 0, 1], [1, 0, 1, 1, 1, 1, 1, 1],
   [0, 1, 0, 1, 0, 1, 0, 1], [0, 1, 1, 1, 1, 1, 1, 1],
   [0, 1, 1, 0, 0, 1, 1, 0], [0, 1, 0, 0, 0, 0, 0, 0]]

/-- Base PSG volume table before the one-shot `(*2)/6` rescale. -/
def ymVolumeTableBase : List ℤ :=
  [62, 161, 265, 377, 580, 774, 1155, 1575,
   2260, 3088, 4570, 6233, 9330, 13187, 21220, 32767]

/-- The PSG volume table after the one-shot initialization in
`NewYm2149Ex` (`ymVolumeTable[i] = (ymVolumeTable[i] * 2) / 6`), which
every constructed chip observes. -/
def ymVolumeTable : List ℤ := ymVolumeTableBase.map (fun v => Int.tdiv (v * 2) 6)

/-- Clamp an envelope value to `0..15` (the `if val < 0 ... else if
val > 15` clamps of `initEnvelopeData`). -/
def clamp15 (v : ℤ) : ℤ := if v < 0 then 0 else if v > 15 then 15 else v

/-- One 16-entry envelope half-step ramp: entry `i` is
`clamp15 (a + d*i)` where `a = 15 * pse[2*phase]` and
`d = pse[2*phase+1] - pse[2*phase]`, exactly the values written by the
inner loop of `initEnvelopeData`. -/
def envHalf (a d : ℤ) : List ℕ :=
  (List.range 16).map (fun i => (clamp15 (a + d * i)).toNat)

/-- The `envData` table of `initEnvelopeData`.  The imperative loop only
writes `envData[env][0][0..15]` (during phase 0, while `pEnv` runs
0..15) and `envData[env][1][16..31]` (during phase 1, while `pEnv`
continues 16..31); phases 2 and 3 write nothing and all other entries
keep their zero initial value.  `envData env phase pos` returns entry
`[env][phase][pos]` of that table. -/
def envData (env phase pos : ℕ) : ℕ :=
  let pse := envWave.getD env []
  if phase = 0 then
    if pos < 16 then
      (envHalf (15 * pse.getD 0 0) (pse.getD 1 0 - pse.getD 0 0)).getD pos 0
    else 0
  else if phase = 1 then
    if 16 ≤ pos ∧ pos < 32 then
      (envHalf (15 * pse.getD 2 0) (pse.getD 3 0 - pse.getD 2 0)).getD (pos - 16) 0
    else 0
  else 0

/-- One special-effect slot (`YmSpecialEffect`). -/
structure SpecialEffect where
  drum : Bool
  drumSize : ℕ
  drumData : List ℕ
  drumPos : ℕ
  drumStep : ℕ
  sid : Bool
  sidPos : ℕ
  sidStep : ℕ
  sidVol : ℤ
  deriving Repr, DecidableEq

/-- The zero `YmSpecialEffect{}` value. -/
def SpecialEffect.zero : SpecialEffect :=
  ⟨false, 0, [], 0, 0, false, 0, 0, 0⟩

/-- Chip state (`CYm2149Ex`).  The per-voice volume pointers
`pVolA/pVolB/pVolC` are modelled as selectors: `true` means the pointer
aims at `volE` (the envelope output), `false` at the voice's own
`volA/volB/volC`.  The `envData` table is identical for every chip and
lives in the global `envData` definition above.  The `DcAdjuster` is
inlined as `dcBuffer/dcPos/dcSum`. -/
structure Ym2149 where
  bFilter : Bool
  internalClock : ℕ
  replayFrequency : ℤ
  registers : List ℕ
  stepA : ℕ
  stepB : ℕ
  stepC : ℕ
  posA : ℕ
  posB : ℕ
  posC : ℕ
  volA : ℤ
  volB : ℤ
  volC : ℤ
  volE : ℤ
  mixerTA : ℕ
  mixerTB : ℕ
  mixerTC : ℕ
  mixerNA : ℕ
  mixerNB : ℕ
  mixerNC : ℕ
  pVolA : Bool
  pVolB : Bool
  pVolC : Bool
  noiseStep : ℕ
  noisePos : ℕ
  rndRack : ℕ
  currentNoise : ℕ
  envStep : ℕ
  envPos : ℕ
  envPhase : ℕ
  envShape : ℕ
  eff0 : SpecialEffect
  eff1 : SpecialEffect
  eff2 : SpecialEffect
  bSyncBuzzer : Bool
  syncBuzzerStep : ℕ
  syncBuzzerPhase : ℕ
  lowPassFilter0 : ℤ
  lowPassFilter1 : ℤ
  dcBuffer : List ℤ
  dcPos : ℕ
  dcSum : ℤ
  deriving Repr, DecidableEq

/-- `toneStepCompute`: 12-bit period from 4 high and 8 low register
bits; periods `≤ 5` yield step 0, otherwise
`(internalClock << 28) / int32(per * replayFrequency)` computed in
`int64` and truncated to `uint32`. -/
def toneStepCompute (clock : ℕ) (replayFreq : ℤ) (rHigh rLow : ℕ) : ℕ :=
  let per : ℤ := ((rHigh % 16 : ℕ) : ℤ) * 256 + (rLow : ℤ)
  if per ≤ 5 then 0
  else u32I (Int.tdiv ((clock : ℤ) * 268435456) (i32I (per * replayFreq)))

/-- `noiseStepCompute`: 5-bit period; `< 3` yields 0, otherwise
`(internalClock << 12) / int32(per * replayFrequency)`. -/
def noiseStepCompute (clock : ℕ) (replayFreq : ℤ) (rNoise : ℕ) : ℕ :=
  let per : ℤ := ((rNoise % 32 : ℕ) : ℤ)
  if per < 3 then 0
  else u32I (Int.tdiv ((clock : ℤ) * 4096) (i32I (per * replayFreq)))

/-- `envStepCompute`: 16-bit period; `< 3` yields 0, otherwise
`(internalClock << 23) / int32(per * replayFrequency)`. -/
def envStepCompute (clock : ℕ) (replayFreq : ℤ) (rHigh rLow : ℕ) : ℕ :=
  let per : ℤ := (rHigh : ℤ) * 256 + (rLow : ℤ)
  if per < 3 then 0
  else u32I (Int.tdiv ((clock : ℤ) * 8388608) (i32I (per * replayFreq)))

/-- `rndCompute`: one step of the 17-bit noise LFSR.  Returns the noise
mask (`0` when the feedback bit is set, else `0xffff`) and the new
`rndRack`. -/
def rndCompute (rack : ℕ) : ℕ × ℕ :=
  let rBit := (rack &&& 1) ^^^ ((rack >>> 2) &&& 1)
  (if rBit ≠ 0 then 0 else 65535, (rack >>> 1) ||| (rBit <<< 16))

/-- `WriteRegister`: stores the masked byte and performs the per-register
side effects (step recomputation, accumulator pinning, mixer masks,
volume/mode selection, envelope retrigger). -/
def writeRegister (st : Ym2149) (reg data : ℤ) : Ym2149 :=
  if reg = 0 then
    let r := st.registers.set 0 (u8 (data % 256).toNat)
    let s := toneStepCompute st.internalClock st.replayFrequency (r.getD 1 0) (r.getD 0 0)
    { st with registers := r, stepA := s, posA := if s = 0 then 2147483648 else st.posA }
  else if reg = 1 then
    let r := st.registers.set 1 (u8 (data % 16).toNat)
    let s := toneStepCompute st.internalClock st.replayFrequency (r.getD 1 0) (r.getD 0 0)
    { st with registers := r, stepA := s, posA := if s = 0 then 2147483648 else st.posA }
  else if reg = 2 then
    let r := st.registers.set 2 (u8 (data % 256).toNat)
    let s := toneStepCompute st.internalClock st.replayFrequency (r.getD 3 0) (r.getD 2 0)
    { st with registers := r, stepB := s, posB := if s = 0 then 2147483648 else st.posB }
  else if reg = 3 then
    let r := st.registers.set 3 (u8 (data % 16).toNat)
    let s := toneStepCompute st.internalClock st.replayFrequency (r.getD 3 0) (r.getD 2 0)
    { st with registers := r, stepB := s, posB := if s = 0 then 2147483648 else st.posB }
  else if reg = 4 then
    let r := st.registers.set 4 (u8 (data % 256).toNat)
    let s := toneStepCompute st.internalClock st.replayFrequency (r.getD 5 0) (r.getD 4 0)
    { st with registers := r, stepC := s, posC := if s = 0 then 2147483648 else st.posC }
  else if reg = 5 then
    let r := st.registers.set 5 (u8 (data % 16).toNat)
    let s := toneStepCompute st.internalClock st.replayFrequency (r.getD 5 0) (r.getD 4 0)
    { st with registers := r, stepC := s, posC := if s = 0 then 2147483648 else st.posC }
  else if reg = 6 then
    let r := st.registers.set 6 (u8 (data % 32).toNat)
    let s := noiseStepCompute st.internalClock st.replayFrequency (r.getD 6 0)
    if s = 0 then
      { st with registers := r, noiseStep := s, noisePos := 0, currentNoise := 65535 }
    else
      { st with registers := r, noiseStep := s }
  else if reg = 7 then
    { st with registers := st.registers.set 7 (u8 (data % 256).toNat)
              mixerTA := if iBit data 0 then 65535 else 0
              mixerTB := if iBit data 1 then 65535 else 0
              mixerTC := if iBit data 2 then 65535 else 0
              mixerNA := if iBit data 3 then 65535 else 0
              mixerNB := if iBit data 4 then 65535 else 0
              mixerNC := if iBit data 5 then 65535 else 0 }
  else if reg = 8 then
    { st with registers := st.registers.set 8 (data % 32).toNat
              volA := ymVolumeTable.getD (data % 16).toNat 0
              pVolA := iBit data 4 }
  else if reg = 9 then
    { st with registers := st.registers.set 9 (data % 32).toNat
              volB := ymVolumeTable.getD (data % 16).toNat 0
              pVolB := iBit data 4 }
  else if reg = 10 then
    { st with registers := st.registers.set 10 (data % 32).toNat
              volC := ymVolumeTable.getD (data % 16).toNat 0
              pVolC := iBit data 4 }
  else if reg = 11 then
    let r := st.registers.set 11 (u8 (data % 256).toNat)
    { st with registers := r
              envStep := envStepCompute st.internalClock st.replayFrequency (r.getD 12 0) (r.getD 11 0) }
  else if reg = 12 then
    let r := st.registers.set 12 (u8 (data % 256).toNat)
    { st with registers := r
              envStep := envStepCompute st.internalClock st.replayFrequency (r.getD 12 0) (r.getD 11 0) }
  else if reg = 13 then
    { st with registers := st.registers.set 13 (data % 16).toNat
              envPos := 0, envPhase := 0, envShape := (data % 16).toNat }
  else st

/-- `ReadRegister`: the stored byte for indices 0..13, `-1` otherwise. -/
def readRegister (st : Ym2149) (reg : ℤ) : ℤ :=
  if 0 ≤ reg ∧ reg ≤ 13 then (st.registers.getD reg.toNat 0 : ℤ) else -1

/-- Fetch effect slot `voice` (`specialEffect[voice]`). -/
def getEff (st : Ym2149) (voice : ℕ) : SpecialEffect :=
  if voice = 0 then st.eff0 else if voice = 1 then st.eff1 else st.eff2

/-- Store effect slot `voice`. -/
def setEff (st : Ym2149) (voice : ℕ) (e : SpecialEffect) : Ym2149 :=
  if voice = 0 then { st with eff0 := e }
  else if voice = 1 then { st with eff1 := e }
  else { st with eff2 := e }

/-- The DigiDrum branch of `sidVolumeCompute` for one voice: write the
scaled drum byte through the passed `pVol` pointer (i.e. into the
voice's own volume), aim the volume pointer back at the voice, force
both mixer masks to `0xffff`, advance the drum cursor and stop the drum
when it runs off the end. -/
def drumApply (st : Ym2149) (voice : ℕ) : Ym2149 :=
  let e := getEff st voice
  let dval : ℤ := Int.tdiv ((e.drumData.getD (e.drumPos >>> 15) 0 : ℤ) * 255) 6
  let st :=
    if voice = 0 then
      { st with volA := dval, pVolA := false, mixerTA := 65535, mixerNA := 65535 }
    else if voice = 1 then
      { st with volB := dval, pVolB := false, mixerTB := 65535, mixerNB := 65535 }
    else
      { st with volC := dval, pVolC := false, mixerTC := 65535, mixerNC := 65535 }
  let pos := u32 (e.drumPos + e.drumStep)
  let e := { e with drumPos := pos, drum := if pos >>> 15 ≥ e.drumSize then false else e.drum }
  setEff st voice e

/-- `sidVolumeCompute` for one voice: a running SID effect rewrites the
voice's amplitude register from bit 31 of its accumulator; a running
DigiDrum streams a sample byte into the voice volume. -/
def sidVolumeCompute (st : Ym2149) (voice : ℕ) : Ym2149 :=
  let e := getEff st voice
  if e.sid then
    if e.sidPos &&& 2147483648 ≠ 0 then writeRegister st (8 + voice) e.sidVol
    else writeRegister st (8 + voice) 0
  else if e.drum then drumApply st voice
  else st

/-- Step 1 of `nextSample`: advance the noise LFSR when the high half of
`noisePos` is non-zero. -/
def afterNoise (st : Ym2149) : Ym2149 :=
  if st.noisePos &&& 4294901760 ≠ 0 then
    let rc := rndCompute st.rndRack
    { st with currentNoise := st.currentNoise ^^^ rc.1, rndRack := rc.2
              noisePos := st.noisePos &&& 65535 }
  else st

/-- Step 2 of `nextSample`: refresh the envelope DAC output `volE`. -/
def afterEnv (st : Ym2149) : Ym2149 :=
  { st with volE := ymVolumeTable.getD (envData st.envShape st.envPhase (st.envPos >>> 27)) 0 }

/-- Steps 1-3 of `nextSample`: noise, envelope, then the three effect
slots. -/
def effState (st : Ym2149) : Ym2149 :=
  sidVolumeCompute (sidVolumeCompute (sidVolumeCompute (afterEnv (afterNoise st)) 0) 1) 2

/-- `YmU32(YmS32(pos) >> 31)`: all-ones when bit 31 of the accumulator
is set, zero otherwise (arithmetic shift of the sign bit). -/
def toneSign (pos : ℕ) : ℕ := u32I (toS32 pos / 2147483648)

/-- The square/noise gate of one voice:
`(sign | mixerT) & (noise | mixerN)`. -/
def btOf (sign mixerT noise mixerN : ℕ) : ℕ := (sign ||| mixerT) &&& (noise ||| mixerN)

/-- Voice A's addend in the summed output of `nextSample`, computed on
the post-effect state: `YmInt(*pVolA) & YmInt(btA)`. -/
def volTermA (s : Ym2149) : ℤ :=
  i32land (if s.pVolA then s.volE else s.volA)
    (btOf (toneSign s.posA) s.mixerTA s.currentNoise s.mixerNA)

/-- Voice B's addend in the summed output of `nextSample`. -/
def volTermB (s : Ym2149) : ℤ :=
  i32land (if s.pVolB then s.volE else s.volB)
    (btOf (toneSign s.posB) s.mixerTB s.currentNoise s.mixerNB)

/-- Voice C's addend in the summed output of `nextSample`. -/
def volTermC (s : Ym2149) : ℤ :=
  i32land (if s.pVolC then s.volE else s.volC)
    (btOf (toneSign s.posC) s.mixerTC s.currentNoise s.mixerNC)

/-- Voice A's contribution to the sample produced by the next
`nextSample` call from state `st` (the value of the local `volA` in the
Go code, after the noise/envelope/effect updates of that same call). -/
def voiceContribA (st : Ym2149) : ℤ := volTermA (effState st)

/-- Voice B's contribution to the sample produced by the next
`nextSample` call from state `st`. -/
def voiceContribB (st : Ym2149) : ℤ := volTermB (effState st)

/-- Voice C's contribution to the sample produced by the next
`nextSample` call from state `st`. -/
def voiceContribC (st : Ym2149) : ℤ := volTermC (effState st)

/-- Steps 5-8 of `nextSample` applied to the post-effect state `s` with
summed voice output `vol`: advance all accumulators, handle envelope
phase transition and Sync-Buzzer retrigger, advance SID accumulators,
DC-adjust and optionally low-pass filter.  Returns the emitted 16-bit
sample and the new state. -/
def advanceState (s : Ym2149) (vol : ℤ) : ℤ × Ym2149 :=
  let s := { s with posA := u32 (s.posA + s.stepA), posB := u32 (s.posB + s.stepB)
                    posC := u32 (s.posC + s.stepC)
                    noisePos := u32 (s.noisePos + s.noiseStep)
                    envPos := u32 (s.envPos + s.envStep) }
  let s := if s.envPhase = 0 ∧ s.envPos < s.envStep then { s with envPhase := 1 } else s
  let s := { s with syncBuzzerPhase := u32 (s.syncBuzzerPhase + s.syncBuzzerStep) }
  let s :=
    if s.syncBuzzerPhase &&& 2147483648 ≠ 0 then
      { s with envPos := 0, envPhase := 0, syncBuzzerPhase := s.syncBuzzerPhase &&& 2147483647 }
    else s
  let s := { s with eff0 := { s.eff0 with sidPos := u32 (s.eff0.sidPos + s.eff0.sidStep) }
                    eff1 := { s.eff1 with sidPos := u32 (s.eff1.sidPos + s.eff1.sidStep) }
                    eff2 := { s.eff2 with sidPos := u32 (s.eff2.sidPos + s.eff2.sidStep) } }
  let sum := i32I (s.dcSum - s.dcBuffer.getD s.dcPos 0 + vol)
  let s := { s with dcSum := sum, dcBuffer := s.dcBuffer.set s.dcPos vol
                    dcPos := (s.dcPos + 1) &&& 511 }
  let inp := i32I (vol - Int.tdiv sum 512)
  if s.bFilter then
    let out := s.lowPassFilter0 / 4 + s.lowPassFilter1 / 2 + inp / 4
    (toS16 (u16I out), { s with lowPassFilter0 := s.lowPassFilter1, lowPassFilter1 := inp })
  else
    (toS16 (u16I inp), s)

/-- `nextSample`: produce one output sample and the successor chip
state. -/
def nextSample (st : Ym2149) : ℤ × Ym2149 :=
  let s := effState st
  advanceState s (i32I (volTermA s + volTermB s + volTermC s))

/-- `Update` on the chip: emit `n` consecutive samples. -/
def chipUpdate (st : Ym2149) : ℕ → List ℤ × Ym2149
  | 0 => ([], st)
  | n + 1 =>
    let p := nextSample st
    let q := chipUpdate p.2 n
    (p.1 :: q.1, q.2)

/-- `SidStop`. -/
def sidStop (st : Ym2149) (voice : ℕ) : Ym2149 :=
  setEff st voice { getEff st voice with sid := false }

/-- `DrumStop`. -/
def drumStop (st : Ym2149) (voice : ℕ) : Ym2149 :=
  setEff st voice { getEff st voice with drum := false }

/-- `SidStart`: the step is computed entirely in `uint32`
(`uint32(timerFreq) * (1 << 31) / uint32(replayFrequency)`), so the
product wraps modulo `2^32` before the division. -/
def sidStart (st : Ym2149) (voice : ℕ) (timerFreq vol : ℤ) : Ym2149 :=
  let tmp := u32 (u32I timerFreq * 2147483648) / u32I st.replayFrequency
  setEff st voice { getEff st voice with sidStep := tmp, sidVol := vol % 16, sid := true }

/-- `SyncBuzzerStart`: same wrapped `uint32` step computation as
`SidStart`. -/
def syncBuzzerStart (st : Ym2149) (timerFreq envShapeArg : ℤ) : Ym2149 :=
  let tmp := u32 (u32I timerFreq * 2147483648) / u32I st.replayFrequency
  { st with envShape := (envShapeArg % 16).toNat, syncBuzzerStep := tmp
            syncBuzzerPhase := 0, bSyncBuzzer := true }

/-- `SyncBuzzerStop`. -/
def syncBuzzerStop (st : Ym2149) : Ym2149 :=
  { st with bSyncBuzzer := false, syncBuzzerPhase := 0, syncBuzzerStep := 0 }

/-- `DrumStart`: arm a DigiDrum; the step is
`uint32(int32(drumFreq << 15) / replayFrequency)`. -/
def drumStart (st : Ym2149) (voice : ℕ) (buf : List ℕ) (size : ℕ) (freq : ℤ) : Ym2149 :=
  if buf ≠ [] ∧ 0 < size then
    setEff st voice
      { getEff st voice with
          drumData := buf, drumPos := 0, drumSize := size
          drumStep := u32I (Int.tdiv (i32I (freq * 32768)) st.replayFrequency)
          drum := true }
  else st

/-- `SetFilter`. -/
def setFilter (st : Ym2149) (b : Bool) : Ym2149 := { st with bFilter := b }

/-- `SetClock`. -/
def setClock (st : Ym2149) (clock : ℕ) : Ym2149 := { st with internalClock := clock }

/-- `Reset`: clear the registers, write 0 to registers 0..13 and `0xff`
to register 7, reinitialize noise, effects, envelope, DC filter and
low-pass state. -/
def chipReset (st : Ym2149) : Ym2149 :=
  let st := { st with registers := List.replicate 14 0 }
  let st := (List.range 14).foldl (fun s i => writeRegister s (i : ℤ) 0) st
  let st := writeRegister st 7 255
  let st := { st with currentNoise := 65535, rndRack := 1 }
  let st := sidStop (sidStop (sidStop st 0) 1) 2
  let st := { st with envShape := 0, envPhase := 0, envPos := 0
                      dcBuffer := List.replicate 512 0, dcPos := 0, dcSum := 0
                      eff0 := SpecialEffect.zero, eff1 := SpecialEffect.zero
                      eff2 := SpecialEffect.zero }
  let st := syncBuzzerStop st
  { st with lowPassFilter0 := 0, lowPassFilter1 := 0 }

/-- `NewYm2149Ex masterClock prediv playRate`: the freshly constructed
and reset chip (`internalClock = masterClock / prediv`,
`replayFrequency = playRate`, filter on, volume pointers at the voices'
own volumes). -/
def newYm2149Ex (masterClock : ℕ) (prediv : ℤ) (playRate : ℕ) : Ym2149 :=
  chipReset
    { bFilter := true
      internalClock := u32 masterClock / u32I prediv
      replayFrequency := toS32 playRate
      registers := List.replicate 14 0
      stepA := 0, stepB := 0, stepC := 0, posA := 0, posB := 0, posC := 0
      volA := 0, volB := 0, volC := 0, volE := 0
      mixerTA := 0, mixerTB := 0, mixerTC := 0
      mixerNA := 0, mixerNB := 0, mixerNC := 0
      pVolA := false, pVolB := false, pVolC := false
      noiseStep := 0, noisePos := 0, rndRack := 0, currentNoise := 0
      envStep := 0, envPos := 0, envPhase := 0, envShape := 0
      eff0 := SpecialEffect.zero, eff1 := SpecialEffect.zero, eff2 := SpecialEffect.zero
      bSyncBuzzer := false, syncBuzzerStep := 0, syncBuzzerPhase := 0
      lowPassFilter0 := 0, lowPassFilter1 := 0
      dcBuffer := List.replicate 512 0, dcPos := 0, dcSum := 0 }

/- ======================================================================
   LZH decoder (`pkg/lzh/decoder.go`).

   Loops whose termination the Go code does not guarantee (the Huffman
   tree walks can cycle through the shared `left`/`right` arrays, and a
   walk can also index past their end, which panics in Go) are modelled
   with explicit fuel / checked accesses; a fuel exhaustion or an
   out-of-range access yields `none`, standing for the Go program
   hanging or panicking, i.e. not returning successfully.  The fuel
   bounds are chosen so that every terminating Go run fits: a tree walk
   that has not finished after 16 mask shifts plus 1019 node hops has
   revisited a node and loops forever.
   ====================================================================== -/

/-- Checked list update: `none` models a Go index-out-of-range panic. -/
def setChk (l : List ℕ) (i v : ℕ) : Option (List ℕ) :=
  if i < l.length then some (l.set i v) else none

/-- Decoder state (`Decoder`).  The `bytes.Reader` input is the list
`input` with cursor `inputPos`; the output `bytes.Buffer` is threaded
separately through the `decode` driver, which is the only writer. -/
structure Lzh where
  input : List ℕ
  inputPos : ℕ
  bitbuf : ℕ
  subbitbuf : ℕ
  bitcount : ℕ
  fillbufsize : ℕ
  fillbuf_i : ℕ
  buf : List ℕ
  left : List ℕ
  right : List ℕ
  c_len : List ℕ
  pt_len : List ℕ
  c_table : List ℕ
  pt_table : List ℕ
  blocksize : ℕ
  decode_j : ℕ
  decode_i : ℕ
  outbuf : List ℕ
  deriving Repr, DecidableEq

/-- The refill loop inside `fillbuf` (`for n > d.bitcount { ... }`);
returns the remaining `n` and the new state.  The fuel `n + 2` given by
`fillbuf` always suffices: after the first iteration `bitcount` is 8
and `n` strictly decreases by 8 per iteration. -/
def fillbufLoop : ℕ → ℕ → Lzh → ℕ × Lzh
  | 0, n, st => (n, st)
  | f + 1, n, st =>
    if st.bitcount < n then
      let st := { st with bitbuf := st.bitbuf ||| u16 (st.subbitbuf <<< (n - st.bitcount)) }
      let n := n - st.bitcount
      let st : Lzh :=
        if st.fillbufsize = 0 then
          let nread := min 4064 (st.input.length - st.inputPos)
          { st with fillbuf_i := 0, buf := (st.input.drop st.inputPos).take 4064
                    inputPos := st.inputPos + nread, fillbufsize := nread }
        else st
      let st : Lzh :=
        if 0 < st.fillbufsize then
          { st with fillbufsize := st.fillbufsize - 1
                    subbitbuf := st.buf.getD st.fillbuf_i 0
                    fillbuf_i := st.fillbuf_i + 1 }
        else { st with subbitbuf := 0 }
      fillbufLoop f n { st with bitcount := 8 }
    else (n, st)

/-- `fillbuf`: shift `n` fresh bits into the 16-bit window. -/
def fillbuf (st : Lzh) (n : ℕ) : Lzh :=
  let st := { st with bitbuf := u16 (st.bitbuf <<< n) }
  let r := fillbufLoop (n + 2) n st
  let st := { r.2 with bitcount := r.2.bitcount - r.1 }
  { st with bitbuf := st.bitbuf ||| (st.subbitbuf >>> st.bitcount) }

/-- `getbits`: peek the top `n` bits, then consume them. -/
def getbits (st : Lzh) (n : ℕ) : ℕ × Lzh :=
  (st.bitbuf >>> (16 - n), fillbuf st n)

/-- `init_getbits`. -/
def init_getbits (st : Lzh) : Lzh :=
  fillbuf { st with bitbuf := 0, subbitbuf := 0, bitcount := 0, fillbufsize := 0 } 16

/-- A Huffman tree walk (`for j >= bound { j = right/left[j]; mask >>= 1 }`),
shared by `decode_c`, `decode_p` and `read_c_len`.  `none` models a Go
panic (node index past the arrays) or the walk cycling forever. -/
def treeWalk (left right : List ℕ) (bitbuf bound : ℕ) : ℕ → ℕ → ℕ → Option ℕ
  | 0, _, j => if j < bound then some j else none
  | f + 1, mask, j =>
    if j < bound then some j
    else if left.length ≤ j then none
    else
      treeWalk left right bitbuf bound f (mask >>> 1)
        (if bitbuf &&& mask ≠ 0 then right.getD j 0 else left.getD j 0)

/-- Fuel that covers every terminating tree walk (see the section
comment). -/
def walkFuel : ℕ := 2048

/-- A pointer into the shared `table` / `left` / `right` arrays, as used
by `make_table` (`p := &table[idx]`, later `p = &d.left[*p]` or
`p = &d.right[*p]`). -/
inductive TPtr where
  | tb (i : ℕ)
  | lf (i : ℕ)
  | rg (i : ℕ)
  deriving Repr, DecidableEq

/-- Read through a `TPtr`. -/
def readP (tbl left right : List ℕ) : TPtr → ℕ
  | .tb i => tbl.getD i 0
  | .lf i => left.getD i 0
  | .rg i => right.getD i 0

/-- Write through a `TPtr`; returns `(tbl, left, right)`. -/
def writeP (tbl left right : List ℕ) (p : TPtr) (v : ℕ) : List ℕ × List ℕ × List ℕ :=
  match p with
  | .tb i => (tbl.set i v, left, right)
  | .lf i => (tbl, left.set i v, right)
  | .rg i => (tbl, left, right.set i v)

/-- Set `table[i] = v` for `i` in `[lo, hi)`. -/
def fillRange (tbl : List ℕ) (lo hi v : ℕ) : List ℕ :=
  (List.range' lo (hi - lo)).foldl (fun t i => t.set i v) tbl

/-- The long-code loop of `make_table` (`for remaining > 0 { ... }`):
allocate internal nodes from `avail` upward and descend; the `Bool`
result tells whether the loop ran to `remaining = 0` (the two `break`s
leave it positive, skipping the final leaf write). -/
def mtWalk (tbl left right : List ℕ) (avail : ℕ) (p : TPtr) (k mask : ℕ) :
    ℕ → List ℕ × List ℕ × List ℕ × ℕ × TPtr × Bool
  | 0 => (tbl, left, right, avail, p, true)
  | r + 1 =>
    let v := readP tbl left right p
    if v = 0 then
      if left.length ≤ avail then (tbl, left, right, avail, p, false)
      else
        let right := right.set avail 0
        let left := left.set avail 0
        let w := writeP tbl left right p avail
        let p' := if k &&& mask ≠ 0 then TPtr.rg avail else TPtr.lf avail
        mtWalk w.1 w.2.1 w.2.2 (avail + 1) p' (u16 (k <<< 1)) mask r
    else if left.length ≤ v then (tbl, left, right, avail, p, false)
    else
      let p' := if k &&& mask ≠ 0 then TPtr.rg v else TPtr.lf v
      mtWalk tbl left right avail p' (u16 (k <<< 1)) mask r

/-- The bit-length histogram `count[1..16]` of `make_table`. -/
def mtCount (bitlen : List ℕ) (nchar : ℕ) : List ℕ :=
  (List.range nchar).foldl
    (fun cnt i =>
      let b := bitlen.getD i 0
      if 0 < b ∧ b ≤ 16 then cnt.set b (u16 (cnt.getD b 0 + 1)) else cnt)
    (List.replicate 17 0)

/-- The starting-code array `start[1..17]` of `make_table`
(`start[i+1] = start[i] + (count[i] << (16-i))`, in `uint16`). -/
def mtStart (cnt : List ℕ) : List ℕ :=
  (List.range' 1 16).foldl
    (fun s i => s.set (i + 1) (u16 (s.getD i 0 + u16 (cnt.getD i 0 <<< (16 - i)))))
    (List.replicate 18 0)

/-- Per-symbol state of the `make_table` main loop. -/
structure MtAcc where
  start : List ℕ
  tbl : List ℕ
  left : List ℕ
  right : List ℕ
  avail : ℕ
  deriving Repr, DecidableEq

/-- One iteration (symbol `ch`) of the `make_table` main loop. -/
def mtChStep (bitlen weight : List ℕ) (tablebits jutbits mask : ℕ)
    (acc : MtAcc) (ch : ℕ) : MtAcc :=
  let bl := bitlen.getD ch 0
  if bl = 0 then acc
  else
    let nextcode := u16 (acc.start.getD bl 0 + weight.getD bl 0)
    if bl ≤ tablebits then
      { acc with
          tbl := fillRange acc.tbl (acc.start.getD bl 0) (min nextcode acc.tbl.length) ch
          start := acc.start.set bl nextcode }
    else
      let k := acc.start.getD bl 0
      let idx := k >>> jutbits
      if acc.tbl.length ≤ idx then acc
      else
        let w := mtWalk acc.tbl acc.left acc.right acc.avail (TPtr.tb idx) k mask
          (bl - tablebits)
        let tlr :=
          if w.2.2.2.2.2 then writeP w.1 w.2.1 w.2.2.1 w.2.2.2.2.1 ch
          else (w.1, w.2.1, w.2.2.1)
        { start := acc.start.set bl nextcode, tbl := tlr.1, left := tlr.2.1
          right := tlr.2.2, avail := w.2.2.2.1 }

/-- `make_table nchar bitlen tablebits table`: returns the updated
`(table, left, right)`. -/
def make_table (left right : List ℕ) (nchar : ℕ) (bitlen : List ℕ)
    (tablebits : ℕ) (tbl : List ℕ) : List ℕ × List ℕ × List ℕ :=
  let cnt := mtCount bitlen nchar
  let start := mtStart cnt
  let jutbits := 16 - tablebits
  let start := (List.range' 1 tablebits).foldl
    (fun s i => s.set i (s.getD i 0 >>> jutbits)) start
  let weight := (List.range' 1 16).foldl
    (fun w i => w.set i (if i ≤ tablebits then 2 ^ (tablebits - i) else 2 ^ (16 - i)))
    (List.replicate 17 0)
  let i0 := start.getD (tablebits + 1) 0 >>> jutbits
  let tbl :=
    if i0 ≠ 0 ∧ i0 < 65536 then fillRange tbl i0 (min (2 ^ tablebits) tbl.length) 0
    else tbl
  let acc := (List.range nchar).foldl (mtChStep bitlen weight tablebits jutbits (2 ^ (15 - tablebits)))
    { start := start, tbl := tbl, left := left, right := right, avail := nchar }
  (acc.tbl, acc.left, acc.right)

/-- Count the run of set bits of `bitbuf` from `mask` downward
(the `for (mask & bitbuf) != 0 { mask >>= 1; c++ }` loop of
`read_pt_len`; at most 13 iterations before the mask reaches 0). -/
def maskCount (bitbuf : ℕ) : ℕ → ℕ → ℕ
  | 0, _ => 0
  | f + 1, mask => if bitbuf &&& mask ≠ 0 then 1 + maskCount bitbuf f (mask >>> 1) else 0

/-- Write a run of `c` zeros into `l` starting at `i`; returns the new
list and cursor. -/
def zeroRun (l : List ℕ) (i : ℕ) : ℕ → Option (List ℕ × ℕ)
  | 0 => some (l, i)
  | c + 1 =>
    match setChk l i 0 with
    | none => none
    | some l' => zeroRun l' (i + 1) c

/-- The main loop of `read_pt_len` (`for i < int(n)`). The fuel `n`
suffices since `i` grows by at least one per iteration. -/
def ptLoop (n : ℕ) (iSpecial : ℤ) : ℕ → ℕ → Lzh → Option (ℕ × Lzh)
  | 0, i, st => some (i, st)
  | f + 1, i, st =>
    if i < n then
      let c := st.bitbuf >>> 13
      let c := if c = 7 then c + maskCount st.bitbuf 16 4096 else c
      let st := fillbuf st (if c < 7 then 3 else c - 3)
      match setChk st.pt_len i c with
      | none => none
      | some pl =>
        let st := { st with pt_len := pl }
        let i := i + 1
        if (i : ℤ) = iSpecial then
          let g := getbits st 2
          match zeroRun g.2.pt_len i g.1 with
          | none => none
          | some z => ptLoop n iSpecial f z.2 { g.2 with pt_len := z.1 }
        else ptLoop n iSpecial f i st
    else some (i, st)

/-- `read_pt_len nn nbit i_special`. -/
def read_pt_len (st : Lzh) (nn nbit : ℕ) (iSpecial : ℤ) : Option Lzh :=
  let g := getbits st nbit
  let n := g.1
  let st := g.2
  if n = 0 then
    let g2 := getbits st nbit
    some { g2.2 with pt_len := (List.range nn).foldl (fun l i => l.set i 0) g2.2.pt_len
                     pt_table := List.replicate 256 g2.1 }
  else
    match ptLoop n iSpecial n 0 st with
    | none => none
    | some (i, st) =>
      let pl := (List.range' i (nn - i)).foldl (fun l j => l.set j 0) st.pt_len
      let m := make_table st.left st.right nn pl 8 st.pt_table
      some { st with pt_len := pl, pt_table := m.1, left := m.2.1, right := m.2.2 }

/-- The main loop of `read_c_len` (`for i < int(n)`); fuel `n` suffices
since `i` grows by at least one per iteration. -/
def clLoop (n : ℕ) : ℕ → ℕ → Lzh → Option (ℕ × Lzh)
  | 0, i, st => some (i, st)
  | f + 1, i, st =>
    if i < n then
      let c := st.pt_table.getD (st.bitbuf >>> 8) 0
      match (if 19 ≤ c then treeWalk st.left st.right st.bitbuf 19 walkFuel 128 c
             else some c) with
      | none => none
      | some c =>
        let st := fillbuf st (st.pt_len.getD c 0)
        if c ≤ 2 then
          let g :=
            if c = 0 then (1, st)
            else if c = 1 then
              let g := getbits st 4; (g.1 + 3, g.2)
            else
              let g := getbits st 9; (g.1 + 20, g.2)
          match zeroRun g.2.c_len i g.1 with
          | none => none
          | some z => clLoop n f z.2 { g.2 with c_len := z.1 }
        else
          match setChk st.c_len i (c - 2) with
          | none => none
          | some cl => clLoop n f (i + 1) { st with c_len := cl }
    else some (i, st)

/-- `read_c_len`. -/
def read_c_len (st : Lzh) : Option Lzh :=
  let g := getbits st 9
  let n := g.1
  let st := g.2
  if n = 0 then
    let g2 := getbits st 9
    some { g2.2 with c_len := List.replicate 510 0, c_table := List.replicate 4096 g2.1 }
  else
    match clLoop n n 0 st with
    | none => none
    | some (i, st) =>
      let cl := (List.range' i (510 - i)).foldl (fun l j => l.set j 0) st.c_len
      let m := make_table st.left st.right 510 cl 12 st.c_table
      some { st with c_len := cl, c_table := m.1, left := m.2.1, right := m.2.2 }

/-- `decode_c`: at a block boundary read the block size and the three
code-length tables, then decode one character/length symbol. -/
def decode_c (st : Lzh) : Option (ℕ × Lzh) :=
  match (if st.blocksize = 0 then
           let g := getbits st 16
           match read_pt_len g.2 19 5 3 with
           | none => none
           | some st =>
             match read_c_len st with
             | none => none
             | some st =>
               match read_pt_len st 14 4 (-1) with
               | none => none
               | some st => some { st with blocksize := g.1 }
         else some st) with
  | none => none
  | some st =>
    let st := { st with blocksize := if st.blocksize = 0 then 65535 else st.blocksize - 1 }
    let j := st.c_table.getD (st.bitbuf >>> 4) 0
    match (if 510 ≤ j then treeWalk st.left st.right st.bitbuf 510 walkFuel 8 j
           else some j) with
    | none => none
    | some j => some (j, fillbuf st (st.c_len.getD j 0))

/-- `decode_p`: decode one match-distance symbol. -/
def decode_p (st : Lzh) : Option (ℕ × Lzh) :=
  let j := st.pt_table.getD (st.bitbuf >>> 8) 0
  match (if 14 ≤ j then treeWalk st.left st.right st.bitbuf 14 walkFuel 128 j
         else some j) with
  | none => none
  | some j =>
    let st := fillbuf st (st.pt_len.getD j 0)
    if j ≠ 0 then
      let j := j - 1
      let g := getbits st j
      some ((1 <<< j) + g.1, g.2)
    else some (j, st)

/-- The dictionary-copy loop of `decodeBuffer`
(`for decode_j > 0 && r < count`); the caller passes `decode_j` as
fuel. -/
def dbCopy (count : ℕ) : ℕ → ℕ → Lzh → Lzh × ℕ
  | 0, r, st => (st, r)
  | f + 1, r, st =>
    if 0 < st.decode_j ∧ r < count then
      let st := { st with outbuf := st.outbuf.set r (st.outbuf.getD st.decode_i 0)
                          decode_i := (st.decode_i + 1) &&& 8191
                          decode_j := st.decode_j - 1 }
      dbCopy count f (r + 1) st
    else (st, r)

/-- The symbol loop of `decodeBuffer` (`for r < count`); fuel `count`
suffices since `r` grows by at least one per iteration. -/
def dbLoop (count : ℕ) : ℕ → ℕ → Lzh → Option Lzh
  | 0, r, st => if count ≤ r then some st else none
  | f + 1, r, st =>
    if r < count then
      match decode_c st with
      | none => none
      | some (c, st) =>
        if c ≤ 255 then dbLoop count f (r + 1) { st with outbuf := st.outbuf.set r c }
        else
          let st := { st with decode_j := c - 253 }
          match decode_p st with
          | none => none
          | some (p, st) =>
            let st := { st with decode_i := u32I ((r : ℤ) - (p : ℤ) - 1) &&& 8191 }
            let w := dbCopy count st.decode_j r st
            dbLoop count f w.2 w.1
    else some st

/-- `decodeBuffer count`: fill `outbuf[0..count)`. -/
def decodeBuffer (st : Lzh) (count : ℕ) : Option Lzh :=
  let w := dbCopy count st.decode_j 0 st
  dbLoop count count w.2 w.1

/-- The driver loop of `decode` (`for origSize > 0`), threading the
output buffer: each round produces `min origSize 8192` bytes. -/
def decodeLoop : ℕ → Lzh → List ℕ → Option (Lzh × List ℕ)
  | 0, st, out => some (st, out)
  | orig + 1, st, out =>
    match decodeBuffer st (min (orig + 1) 8192) with
    | none => none
    | some st =>
      decodeLoop (orig + 1 - min (orig + 1) 8192) st
        (out ++ st.outbuf.take (min (orig + 1) 8192))
termination_by orig _ _ => orig
decreasing_by omega

/-- The freshly constructed `Decoder` over the compressed bytes
`comp` (`NewDecoder`): all arrays zeroed at their Go sizes. -/
def lzhInit (comp : List ℕ) : Lzh :=
  { input := comp, inputPos := 0, bitbuf := 0, subbitbuf := 0, bitcount := 0
    fillbufsize := 0, fillbuf_i := 0, buf := []
    left := List.replicate 1019 0, right := List.replicate 1019 0
    c_len := List.replicate 510 0, pt_len := List.replicate 19 0
    c_table := List.replicate 4096 0, pt_table := List.replicate 256 0
    blocksize := 0, decode_j := 0, decode_i := 0
    outbuf := List.replicate 8192 0 }

/-- `decode origSize` on a fresh decoder over the compressed bytes
`comp`: `init_getbits`, clear `blocksize` and `decode_j`, then run the
driver; returns the output bytes. -/
def decodeTop (comp : List ℕ) (orig : ℕ) : Option (List ℕ) :=
  let st := lzhInit comp
  let st := init_getbits st
  let st := { st with blocksize := 0, decode_j := 0 }
  match decodeLoop orig st [] with
  | none => none
  | some r => some r.2

/-- The `-lhX-` header pattern test at offset `i`
(`data[i+2] == '-' && data[i+3] == 'l' && data[i+4] == 'h' && data[i+6] == '-'`). -/
def lzhPattern (data : List ℕ) (i : ℕ) : Bool :=
  data.getD (i + 2) 0 == 45 && data.getD (i + 3) 0 == 108 &&
  data.getD (i + 4) 0 == 104 && data.getD (i + 6) 0 == 45

/-- `IsLZHCompressed`. -/
def isLZHCompressed (data : List ℕ) : Bool :=
  if data.length < 7 then false else lzhPattern data 0

/-- Error outcomes of `Decompress`.  `corrupt` stands for the decode
phase not returning (a Go hang or panic on malformed Huffman data). -/
inductive LzhErr where
  | tooSmall
  | headerNotFound
  | unsupportedMethod
  | readErr
  | incompleteData
  | corrupt
  deriving Repr, DecidableEq

/-- Read a little-endian `uint32` from the first four bytes. -/
def readLE32 (l : List ℕ) : ℕ :=
  l.getD 0 0 + l.getD 1 0 * 256 + l.getD 2 0 * 65536 + l.getD 3 0 * 16777216

/-- The byte lists of the three accepted method strings. -/
def mLh5 : List ℕ := [45, 108, 104, 53, 45]

/-- Method id `-lh4-`. -/
def mLh4 : List ℕ := [45, 108, 104, 52, 45]

/-- Method id `-lh0-`. -/
def mLh0 : List ℕ := [45, 108, 104, 48, 45]

/-- Parsed header of `Decompress`: the method id, the little-endian
`PackedSize` and `OriginalSize` fields, and the bytes following the
skipped header. -/
def lzhParseHeader (data : List ℕ) :
    Except LzhErr (List ℕ × ℕ × ℕ × List ℕ) :=
  if data.length < 7 then .error .tooSmall
  else
    match (List.range (data.length - 6)).find? (fun i => lzhPattern data i) with
    | none => .error .headerNotFound
    | some hs =>
      let rest := data.drop hs
      let method := [rest.getD 2 0, rest.getD 3 0, rest.getD 4 0, rest.getD 5 0, rest.getD 6 0]
      if method ≠ mLh5 ∧ method ≠ mLh4 ∧ method ≠ mLh0 then .error .unsupportedMethod
      else if rest.length < 11 then .error .readErr
      else if rest.length < 15 then .error .readErr
      else
        let toSkip : ℤ := (rest.getD 0 0 : ℤ) + 2 - 15
        let dataStart : ℕ := 15 + (if 0 < toSkip then toSkip.toNat else 0)
        .ok (method, readLE32 (rest.drop 7), readLE32 (rest.drop 11), rest.drop dataStart)

/-- `Decompress`: locate and parse the LZH header, then either copy the
stored bytes (`-lh0-`) or run the Huffman decoder (`-lh4-`/`-lh5-`). -/
def lzhDecompress (data : List ℕ) : Except LzhErr (List ℕ) :=
  match lzhParseHeader data with
  | .error e => .error e
  | .ok (method, packed, orig, body) =>
    if method = mLh0 then
      if min orig body.length ≠ orig then .error .incompleteData
      else .ok (body.take orig)
    else
      match decodeTop (body.take (min packed body.length)) orig with
      | none => .error .corrupt
      | some out => .ok out

/- ======================================================================
   Music player (`CYmMusic`, files `ymmusic.go` and the loader part).
   ====================================================================== -/

/-- `mfpPrediv`. -/
def mfpPrediv : List ℤ := [0, 4, 10, 16, 50, 64, 100, 200]

/-- One `DigiDrum` entry. -/
structure DigiDrum where
  size : ℕ
  data : List ℕ
  repLen : ℕ
  deriving Repr, DecidableEq

/-- Modelled from the spec: the built-in MADMAX drum bank
(`sampleAddress`) lives in a repository source file that is not present
under `src/`, and the spec does not give its contents; it is modelled
as an empty bank, so the `YM_V2` DigiDrum branch of `player` never
fires.  No claim below depends on these samples. -/
def sampleAddress : List (List ℕ) := []

/-- Modelled from the spec: the per-sample lengths (`sampleLen`) of the
missing MADMAX drum bank; empty alongside `sampleAddress`. -/
def sampleLen : List ℕ := []

/-- Player state (`CYmMusic`).  Song-information strings are kept as
byte lists.  Fields used only by the MIX digital-stream and YMT tracker
code paths (`pMixBlock`, `pTimeInfo`, `pBigSampleBuffer`, the tracker
voices and volume table, ...) are omitted: `ymDecode` recognises no
MIX or tracker tag, so a loaded player never enters those paths (see
`ymDecode` below). -/
structure Music where
  ymChip : Ym2149
  songType : ℤ
  nbFrame : ℤ
  loopFrame : ℤ
  currentFrame : ℤ
  nbDrum : ℤ
  pDrumTab : List DigiDrum
  pBigMalloc : List ℕ
  pDataStream : List ℕ
  bLoop : Bool
  fileSize : ℤ
  playerRate : ℤ
  attrib : ℤ
  bMusicOk : Bool
  bPause : Bool
  bMusicOver : Bool
  streamInc : ℤ
  innerSamplePos : ℤ
  replayRate : ℤ
  mixPos : ℤ
  iMusicPosAccurateSample : ℕ
  iMusicPosInMs : ℕ
  pSongName : List ℕ
  pSongAuthor : List ℕ
  pSongComment : List ℕ
  pSongType : List ℕ
  pSongPlayer : List ℕ
  deriving Repr, DecidableEq

/-- `NewYmMusic replayRate` (rates `≤ 0` default to 44100; the chip is
built with `NewYm2149Ex(ATARI_CLOCK, 1, uint32(replayRate))` and
`mixPos` starts at `-1`; `SetLoopMode(false)`). -/
def newYmMusic (replayRate : ℤ) : Music :=
  let rate := if replayRate ≤ 0 then 44100 else replayRate
  { ymChip := newYm2149Ex 2000000 1 (u32I rate)
    songType := 0, nbFrame := 0, loopFrame := 0, currentFrame := 0
    nbDrum := 0, pDrumTab := [], pBigMalloc := [], pDataStream := []
    bLoop := false, fileSize := 0, playerRate := 0, attrib := 0
    bMusicOk := false, bPause := false, bMusicOver := false
    streamInc := 0, innerSamplePos := 0, replayRate := rate, mixPos := -1
    iMusicPosAccurateSample := 0, iMusicPosInMs := 0
    pSongName := [], pSongAuthor := [], pSongComment := []
    pSongType := [], pSongPlayer := [] }

/-- `stop`. -/
def musicStop (st : Music) : Music :=
  { st with bPause := true, currentFrame := 0, iMusicPosInMs := 0
            iMusicPosAccurateSample := 0, mixPos := -1 }

/-- `unLoad`. -/
def unLoad (st : Music) : Music :=
  { st with bMusicOk := false, bPause := true, bMusicOver := false
            pSongName := [], pSongAuthor := [], pSongComment := []
            pSongType := [], pSongPlayer := []
            pBigMalloc := [], pDataStream := [], pDrumTab := [], nbDrum := 0 }

/-- `IsSeekable` (`attrib & A_TIMECONTROL != 0`). -/
def isSeekable (st : Music) : Bool := iBit st.attrib 3

/-- `SetLoopMode`. -/
def setLoopMode (st : Music) (b : Bool) : Music := { st with bLoop := b }

/-- `SetLowpassFilter`. -/
def setLowpassFilter (st : Music) (b : Bool) : Music :=
  { st with ymChip := setFilter st.ymChip b }

/-- `ReadYmRegister`: the `int` argument passes through a `YmInt`
(`int32`) conversion, which truncates to 32 bits. -/
def readYmRegister (st : Music) (reg : ℤ) : ℤ := readRegister st.ymChip (i32I reg)

/-- `readYm5Effects`: decode the YM5 per-frame SID and DigiDrum effect
opcodes from registers 1/3/6/8 and the virtual registers 14/15. -/
def readYm5Effects (st : Music) (data : List ℕ) : Music :=
  let st :=
    let code := (data.getD 1 0 >>> 4) &&& 3
    if code ≠ 0 then
      let voice := code - 1
      let prediv := i32I (mfpPrediv.getD ((data.getD 6 0 >>> 5) &&& 7) 0 * (data.getD 14 0 : ℤ))
      if prediv ≠ 0 then
        let c2 := sidStart st.ymChip voice (Int.tdiv 2457600 prediv)
          ((data.getD (voice + 8) 0 &&& 15 : ℕ) : ℤ)
        { st with ymChip := c2 }
      else st
    else st
  let code := (data.getD 3 0 >>> 4) &&& 3
  if code ≠ 0 then
    let voice := code - 1
    let ndrum := data.getD (8 + voice) 0 &&& 31
    if (ndrum : ℤ) < st.nbDrum then
      let prediv := i32I (mfpPrediv.getD ((data.getD 8 0 >>> 5) &&& 7) 0 * (data.getD 15 0 : ℤ))
      if prediv ≠ 0 then
        let d := st.pDrumTab.getD ndrum ⟨0, [], 0⟩
        let c2 := drumStart st.ymChip voice d.data d.size (Int.tdiv 2457600 prediv)
        { st with ymChip := c2 }
      else st
    else st
  else st

/-- `readYm6Effect`: decode one YM6 effect slot
(`(code, prediv, count)` register indices); action bits `00`/`80` are
SID (Sinus-SID is parsed but not implemented), `40` DigiDrum, `C0`
Sync-Buzzer. -/
def readYm6Effect (st : Music) (data : List ℕ) (code prediv count : ℕ) : Music :=
  let effectCode := data.getD code 0 &&& 240
  let predivVal := (data.getD prediv 0 >>> 5) &&& 7
  let countVal := data.getD count 0
  if effectCode &&& 48 ≠ 0 then
    let voice := ((effectCode &&& 48) >>> 4) - 1
    let action := effectCode &&& 192
    if action = 0 ∨ action = 128 then
      let p := i32I (mfpPrediv.getD predivVal 0 * (countVal : ℤ))
      if p ≠ 0 then
        if action = 0 then
          let c2 := sidStart st.ymChip voice (Int.tdiv 2457600 p)
            ((data.getD (voice + 8) 0 &&& 15 : ℕ) : ℤ)
          { st with ymChip := c2 }
        else st
      else st
    else if action = 64 then
      let ndrum := data.getD (voice + 8) 0 &&& 31
      if (ndrum : ℤ) < st.nbDrum then
        let p := i32I (mfpPrediv.getD predivVal 0 * (countVal : ℤ))
        if p ≠ 0 then
          let d := st.pDrumTab.getD ndrum ⟨0, [], 0⟩
          let c2 := drumStart st.ymChip voice d.data d.size (Int.tdiv 2457600 p)
          { st with ymChip := c2 }
        else st
      else st
    else
      let p := i32I (mfpPrediv.getD predivVal 0 * (countVal : ℤ))
      if p ≠ 0 then
        let c2 := syncBuzzerStart st.ymChip (Int.tdiv 2457600 p)
          ((data.getD (voice + 8) 0 &&& 15 : ℕ) : ℤ)
        { st with ymChip := c2 }
      else st
  else st

/-- The part of `player` that runs once the frame index is in range:
fetch the frame, write registers 0..10, stop all special effects, apply
the per-format register-11..15 handling, and advance `currentFrame`. -/
def playerBody (st : Music) : Music :=
  let ptr := st.currentFrame * st.streamInc
  if ptr + st.streamInc > (st.pDataStream.length : ℤ) then { st with bMusicOver := true }
  else
    let data := (st.pDataStream.drop ptr.toNat).take st.streamInc.toNat
    let chip := (List.range 11).foldl
      (fun c i => writeRegister c (Int.ofNat i) (Int.ofNat (data.getD i 0))) st.ymChip
    let chip := syncBuzzerStop (sidStop (sidStop (sidStop chip 0) 1) 2)
    let st := { st with ymChip := chip }
    let st :=
      if st.songType = 0 then
        let chip := st.ymChip
        let chip :=
          if data.getD 13 0 ≠ 255 then
            writeRegister (writeRegister (writeRegister chip 11 (data.getD 11 0 : ℤ)) 12 0) 13 10
          else chip
        let chip :=
          if data.getD 10 0 &&& 128 ≠ 0 then
            let sampleNum := data.getD 10 0 &&& 127
            if data.getD 12 0 ≠ 0 then
              if sampleNum < sampleAddress.length then
                drumStart chip 2 (sampleAddress.getD sampleNum [])
                  (sampleLen.getD sampleNum 0)
                  (Int.tdiv 2457600 (data.getD 12 0 : ℤ))
              else chip
            else chip
          else chip
        { st with ymChip := chip }
      else if 1 ≤ st.songType then
        let chip := writeRegister (writeRegister st.ymChip 11 (data.getD 11 0 : ℤ)) 12
          (data.getD 12 0 : ℤ)
        let chip := if data.getD 13 0 ≠ 255 then writeRegister chip 13 (data.getD 13 0 : ℤ) else chip
        let st := { st with ymChip := chip }
        if 3 ≤ st.songType then
          if st.songType = 4 then readYm6Effect (readYm6Effect st data 1 6 14) data 3 8 15
          else readYm5Effects st data
        else st
      else st
    { st with currentFrame := st.currentFrame + 1 }

/-- `player`: the per-VBL frame routine; at the end of the stream it
either loops to `loopFrame` or marks the music over and resets the
chip. -/
def player (st : Music) : Music :=
  let st := if st.currentFrame < 0 then { st with currentFrame := 0 } else st
  if st.currentFrame ≥ st.nbFrame then
    if st.bLoop then playerBody { st with currentFrame := st.loopFrame }
    else { st with bMusicOver := true, ymChip := chipReset st.ymChip }
  else playerBody st

/-- The VBL-chunked sample loop of `Update` (`for nbs > 0`).  The fuel
`n` suffices whenever `0 < vbl` and `innerSamplePos < vbl` hold: each
iteration then consumes at least one sample. -/
def updateLoop (vbl : ℤ) : ℕ → ℤ → Music → List ℤ × Music
  | 0, _, st => ([], st)
  | f + 1, nbs, st =>
    if 0 < nbs then
      let stc0 := vbl - st.innerSamplePos
      let stc := if stc0 > nbs then nbs else stc0
      let st := { st with innerSamplePos := st.innerSamplePos + stc }
      let st : Music :=
        if st.innerSamplePos ≥ vbl then
          let p := player st
          { p with innerSamplePos := p.innerSamplePos - vbl }
        else st
      let r : List ℤ × Music :=
        if 0 < stc then
          let u := chipUpdate st.ymChip stc.toNat
          (u.1, { st with ymChip := u.2 })
        else ([], st)
      let rest := updateLoop vbl f (nbs - stc) r.2
      (r.1 ++ rest.1, rest.2)
    else ([], st)

/-- `Update`: fill `n` samples; when not loaded, paused or over, the
buffer is cleared and the flag is `false` exactly when the music is
over.  The MIX digital-stream and YMT tracker branches are kept as
dispatch cases but modelled as the cleared buffer: `ymDecode` (below)
recognises no MIX or tracker tag, so no loaded player reaches them (the
tracker mixer also computes with `float64`).  Returns the written
samples, the new state and the `still playing` flag. -/
def update (st : Music) (n : ℕ) : List ℤ × Music × Bool :=
  if ¬st.bMusicOk ∨ st.bPause ∨ st.bMusicOver then
    (List.replicate n 0, st, if st.bMusicOver then false else true)
  else if 73 ≤ st.songType ∧ st.songType < 75 then
    (List.replicate n 0, st, true)
  else if 38 ≤ st.songType ∧ st.songType < 40 then
    (List.replicate n 0, st, true)
  else
    let r := updateLoop (Int.tdiv st.replayRate st.playerRate) n (n : ℤ) st
    (r.1, r.2, true)

/-- `GetPos` (milliseconds), in `uint32` arithmetic:
`uint32(currentFrame) * 1000 / uint32(playerRate)`. -/
def getPos (st : Music) : ℕ :=
  if 73 ≤ st.songType ∧ st.songType < 75 then st.iMusicPosInMs
  else if 0 < st.nbFrame ∧ 0 < st.playerRate then
    u32 (u32I st.currentFrame * 1000) / u32I st.playerRate
  else 0

/-- `GetMusicTime` (milliseconds). -/
def getMusicTime (st : Music) : ℕ :=
  if 73 ≤ st.songType ∧ st.songType < 75 then st.iMusicPosInMs
  else if 0 < st.nbFrame ∧ 0 < st.playerRate then
    u32 (u32I st.nbFrame * 1000) / u32I st.playerRate
  else 0

/-- `SetMusicTime`: for register-stream and tracker formats
`currentFrame = time * playerRate / 1000` in `uint32` arithmetic, with
times at or past the song length snapped to 0; no-op when not
seekable.  (The MIX branch calls `setMixTime`; MIX files cannot be
loaded, so it is modelled as the identity.)  Returns the adjusted time
and the new state. -/
def setMusicTime (st : Music) (time : ℕ) : ℕ × Music :=
  if ¬isSeekable st then (0, st)
  else if 0 ≤ st.songType ∧ st.songType < 5 then
    let newTime := if time ≥ getMusicTime st then 0 else time
    (newTime, { st with currentFrame := Int.ofNat (u32 (newTime * u32I st.playerRate) / 1000) })
  else if 38 ≤ st.songType ∧ st.songType < 40 then
    let newTime := if time ≥ getMusicTime st then 0 else time
    (newTime, { st with currentFrame := Int.ofNat (u32 (newTime * u32I st.playerRate) / 1000) })
  else (time, st)

/- ----- loader (`ymxxx.go` part: depackFile, ymDecode, loadMemory) ----- -/

/-- Load-time error outcomes.  `oob` stands for a Go slice/index panic
during decoding (e.g. a YM5 file shorter than 12 bytes). -/
inductive LoadErr where
  | tooSmall
  | badSignature
  | ym4Unsupported
  | unknownFormat
  | lzhFail (e : LzhErr)
  | oob
  deriving Repr, DecidableEq

/-- `readBigEndian32` of the first four bytes. -/
def readBE32 (l : List ℕ) : ℕ :=
  l.getD 0 0 * 16777216 + l.getD 1 0 * 65536 + l.getD 2 0 * 256 + l.getD 3 0

/-- `readMotorolaDword` on a `bytes.Buffer`: consume four bytes
(missing bytes read as 0). -/
def readMotorolaDword (l : List ℕ) : ℕ × List ℕ := (readBE32 l, l.drop 4)

/-- `readMotorolaWord`: consume two bytes. -/
def readMotorolaWord (l : List ℕ) : ℕ × List ℕ :=
  (l.getD 0 0 * 256 + l.getD 1 0, l.drop 2)

/-- `readNtString`: consume up to and including a NUL byte (or the
whole buffer), returning the string bytes. -/
def readNtString : List ℕ → List ℕ × List ℕ
  | [] => ([], [])
  | b :: rest =>
    if b = 0 then ([], rest)
    else
      let r := readNtString rest
      (b :: r.1, r.2)

/-- The drum-bank loop of the YM5/YM6 branch of `ymDecode`: read
`nbDrum` big-endian-sized sample blocks, remapping 4-bit drums through
the volume table when `A_DRUM4BITS` is set. -/
def readDrums (attrib : ℤ) : ℕ → List ℕ → List DigiDrum × List ℕ
  | 0, buf => ([], buf)
  | k + 1, buf =>
    let r := readMotorolaDword buf
    let size := r.1
    let buf := r.2
    if 0 < size then
      let bytes := buf.take size ++ List.replicate (size - min size buf.length) 0
      let buf := buf.drop size
      let bytes :=
        if iBit attrib 2 then
          bytes.map (fun b => u8 ((ymVolumeTable.getD (b % 16) 0).toNat >>> 7))
        else bytes
      let rest := readDrums attrib k buf
      (⟨size, bytes, 0⟩ :: rest.1, rest.2)
    else
      let rest := readDrums attrib k buf
      (⟨size, [], 0⟩ :: rest.1, rest.2)

/-- ASCII bytes of `"LeOnArD!"`. -/
def leonardSig : List ℕ := [76, 101, 79, 110, 65, 114, 68, 33]

/-- ASCII bytes of `"Unknown"`. -/
def strUnknown : List ℕ := [85, 110, 107, 110, 111, 119, 110]

/-- ASCII bytes of `"YM-Chip driver"`. -/
def strChipDriver : List ℕ := [89, 77, 45, 67, 104, 105, 112, 32, 100, 114, 105, 118, 101, 114]

/-- `deInterleave`: when `A_STREAMINTERLEAVED` is set, transpose the
register-major stream to frame-major and clear the flag; a stream
shorter than `nbFrame * streamInc` makes the Go loop index past the
end (`oob`). -/
def deInterleave (st : Music) : Except LoadErr Music :=
  if ¬iBit st.attrib 0 then .ok st
  else
    let nf := st.nbFrame.toNat
    let inc := st.streamInc.toNat
    if st.pDataStream.length < nf * inc then .error .oob
    else
      let tmp := (List.range (nf * inc)).map
        (fun d => st.pDataStream.getD ((d % inc) * nf + d / inc) 0)
      .ok { st with pBigMalloc := tmp, pDataStream := tmp, attrib := st.attrib - 1 }

/-- `ymDecode`: identify the format by the big-endian 4-byte tag and
fill in the music object.  Recognised tags: `YM2!`, `YM3!`, `YM3b`,
`YM5!`, `YM6!`; `YM4!` is rejected as unsupported and anything else
(including `MIX1`, `YMT1`, `YMT2`) as an unknown format.  On error the
Go code leaves partially written fields behind; the model returns the
error alone, and no theorem below inspects those fields. -/
def ymDecode (st : Music) : Except LoadErr Music :=
  if st.pBigMalloc.length < 4 then .error .tooSmall
  else
    let id := readBE32 st.pBigMalloc
    if id = 0x594D3221 then
      -- 'YM2!' = 0x594D3221
      deInterleave
        { st with songType := 0, nbFrame := Int.tdiv (st.fileSize - 4) 14, loopFrame := 0
                  ymChip := setClock st.ymChip 2000000, playerRate := 50
                  pDataStream := st.pBigMalloc.drop 4, streamInc := 14, nbDrum := 0
                  attrib := 9
                  pSongName := strUnknown, pSongAuthor := strUnknown
                  pSongComment := [67, 111, 110, 118, 101, 114, 116, 101, 100, 32, 98, 121,
                                   32, 76, 101, 111, 110, 97, 114, 100, 46]
                  pSongType := [89, 77, 32, 50], pSongPlayer := strChipDriver }
    else if id = 0x594D3321 then
      -- 'YM3!' = 0x594D3321
      deInterleave
        { st with songType := 1, nbFrame := Int.tdiv (st.fileSize - 4) 14, loopFrame := 0
                  ymChip := setClock st.ymChip 2000000, playerRate := 50
                  pDataStream := st.pBigMalloc.drop 4, streamInc := 14, nbDrum := 0
                  attrib := 9
                  pSongName := strUnknown, pSongAuthor := strUnknown, pSongComment := []
                  pSongType := [89, 77, 32, 51], pSongPlayer := strChipDriver }
    else if id = 0x594D3362 then
      -- 'YM3b' = 0x594D3362: loop frame in the last 4 bytes, little-endian
      deInterleave
        { st with songType := 1, nbFrame := Int.tdiv (st.fileSize - 4) 14
                  loopFrame := (readLE32 (st.pBigMalloc.drop (st.fileSize - 4).toNat) : ℤ)
                  ymChip := setClock st.ymChip 2000000, playerRate := 50
                  pDataStream := st.pBigMalloc.drop 4, streamInc := 14, nbDrum := 0
                  attrib := 9
                  pSongName := strUnknown, pSongAuthor := strUnknown, pSongComment := []
                  pSongType := [89, 77, 32, 51, 98, 32, 40, 108, 111, 111, 112, 41]
                  pSongPlayer := strChipDriver }
    else if id = 0x594D3521 ∨ id = 0x594D3621 then
      -- 'YM5!' = 0x594D3521 / 'YM6!' = 0x594D3621
      if st.pBigMalloc.length < 12 then .error .oob
      else if (st.pBigMalloc.drop 4).take 8 ≠ leonardSig then .error .badSignature
      else
        let b := st.pBigMalloc.drop 12
        let r := readMotorolaDword b
        let nbFrame := r.1
        let r := readMotorolaDword r.2
        let attribRaw := r.1
        let r := readMotorolaWord r.2
        let nbDrum := r.1
        let r := readMotorolaDword r.2
        let clock := r.1
        let r := readMotorolaWord r.2
        let playerRate := r.1
        let r := readMotorolaDword r.2
        let loopFrame := r.1
        let r := readMotorolaWord r.2
        let b := r.2.drop r.1
        let attrib := toS32 attribRaw
        let attrib := if iBit attrib 3 then attrib else attrib + 8
        let dr := readDrums attrib nbDrum b
        let attrib := if 0 < nbDrum then (if iBit attrib 2 then attrib - 4 else attrib) else attrib
        let b := dr.2
        let s1 := readNtString b
        let s2 := readNtString s1.2
        let s3 := readNtString s2.2
        deInterleave
          { st with songType := if id = 0x594D3621 then 4 else 3
                    nbFrame := (nbFrame : ℤ), attrib := attrib, nbDrum := (nbDrum : ℤ)
                    ymChip := setClock st.ymChip clock
                    playerRate := (playerRate : ℤ), loopFrame := (loopFrame : ℤ)
                    pDrumTab := dr.1
                    pSongName := s1.1, pSongAuthor := s2.1, pSongComment := s3.1
                    pSongType := if id = 0x594D3621 then [89, 77, 32, 54] else [89, 77, 32, 53]
                    pDataStream := s3.2, streamInc := 16, pSongPlayer := strChipDriver }
    else if id = 0x594D3421 then
      -- 'YM4!' = 0x594D3421
      .error .ym4Unsupported
    else .error .unknownFormat

/-- `depackFile`: pass small buffers through; LZH-compressed buffers
are decompressed, anything else is returned unchanged. -/
def depackFile (st : Music) : Except LoadErr (List ℕ) :=
  if st.pBigMalloc.length < 22 then .ok st.pBigMalloc
  else if isLZHCompressed st.pBigMalloc then
    match lzhDecompress st.pBigMalloc with
    | .error e => .error (.lzhFail e)
    | .ok d => .ok d
  else .ok st.pBigMalloc

/-- `loadMemory`: stop and unload, store the bytes, depack, decode, and
only on success reset the chip and mark the music loaded.  Returns the
player (with `bMusicOk` still false on every error path) and the error,
if any. -/
def loadMemory (st : Music) (data : List ℕ) : Music × Option LoadErr :=
  let st := unLoad (musicStop st)
  let st := { st with pBigMalloc := data, fileSize := (data.length : ℤ) }
  match depackFile st with
  | .error e => (st, some e)
  | .ok dep =>
    let st := { st with pBigMalloc := dep }
    match ymDecode st with
    | .error e => (st, some e)
    | .ok st =>
      ({ st with ymChip := chipReset st.ymChip, bMusicOk := true, bPause := false }, none)

/-- One full deterministic run: load `data` at `rate`, set the loop
mode and the low-pass filter, then serve the `Update` calls in
`calls`, concatenating all produced samples; `none` when the load
fails. -/
def runSequence (data : List ℕ) (rate : ℤ) (filt loopMode : Bool) (calls : List ℕ) :
    Option (List ℤ) :=
  let r := loadMemory (newYmMusic rate) data
  match r.2 with
  | some _ => none
  | none =>
    let st := setLowpassFilter (setLoopMode r.1 loopMode) filt
    some (calls.foldl (fun acc n =>
      let u := update acc.2 n
      (acc.1 ++ u.1, u.2.1)) (([] : List ℤ), st)).1

/- ======================================================================
   Statement helpers and general lemmas.
   ====================================================================== -/

/-- The 12-bit tone period of voice `v` (0, 1 or 2) as `toneStepCompute`
reads it: 4 bits of the high register `2v+1`, 8 bits of the low register
`2v`. -/
def tonePeriod (st : Ym2149) (v : ℕ) : ℤ :=
  ((st.registers.getD (2 * v + 1) 0 % 16 : ℕ) : ℤ) * 256 + (st.registers.getD (2 * v) 0 : ℤ)

/-- The stored tone step of voice `v`. -/
def toneStepOf (st : Ym2149) (v : ℕ) : ℕ :=
  if v = 0 then st.stepA else if v = 1 then st.stepB else st.stepC

/-- The tone phase accumulator of voice `v`. -/
def tonePosOf (st : Ym2149) (v : ℕ) : ℕ :=
  if v = 0 then st.posA else if v = 1 then st.posB else st.posC

/-- The mask `WriteRegister` applies to the data byte of register
`reg` before storing it. -/
def registerMask (reg data : ℤ) : ℤ :=
  if reg = 1 ∨ reg = 3 ∨ reg = 5 ∨ reg = 13 then data % 16
  else if reg = 6 ∨ reg = 8 ∨ reg = 9 ∨ reg = 10 then data % 32
  else data % 256

theorem getD_set_self (l : List ℕ) (i v d : ℕ) (h : i < l.length) :
    (l.set i v).getD i d = v := by
  simp [List.getD_eq_getElem?_getD, List.getElem?_set, h]

theorem getD_set_ne (l : List ℕ) {i j : ℕ} (v d : ℕ) (h : i ≠ j) :
    (l.set i v).getD j d = l.getD j d := by
  simp [List.getD_eq_getElem?_getD, List.getElem?_set, h]

theorem u32I_of_nonneg {x : ℤ} (h0 : 0 ≤ x) (h : x < 4294967296) : u32I x = x.toNat := by
  unfold u32I
  rw [Int.emod_eq_of_lt h0 h]

theorem toS32_small {n : ℕ} (h : n < 2147483648) : toS32 n = (n : ℤ) := by
  unfold toS32
  split <;> omega

theorem i32I_small {x : ℤ} (h0 : 0 ≤ x) (h : x < 2147483648) : i32I x = x := by
  unfold i32I
  rw [u32I_of_nonneg h0 (by omega)]
  rw [toS32_small (by omega)]
  exact Int.toNat_of_nonneg h0

theorem i32I_range {x : ℤ} (h0 : -2147483648 ≤ x) (h : x < 2147483648) : i32I x = x := by
  unfold i32I u32I toS32
  split <;> omega

/-- A value below `2^16` is unchanged by AND with any word whose low 16
bits are all ones. -/
theorem land_low16 (v x : ℕ) (hv : v < 65536)
    (hx : ∀ i, i < 16 → x.testBit i = true) : v &&& x = v := by
  apply Nat.eq_of_testBit_eq
  intro i
  rw [Nat.testBit_land]
  by_cases h : i < 16
  · rw [hx i h, Bool.and_true]
  · have hv16 : (65536 : ℕ) ≤ 2 ^ i := by
      calc (65536 : ℕ) = 2 ^ 16 := by norm_num
      _ ≤ 2 ^ i := Nat.pow_le_pow_right (by norm_num) (by omega)
    rw [Nat.testBit_lt_two_pow (by omega)]
    simp

theorem chipUpdate_length (st : Ym2149) (n : ℕ) : (chipUpdate st n).1.length = n := by
  induction n generalizing st with
  | zero => rfl
  | succ k ih => simp [chipUpdate, ih]

/- ======================================================================
   C2 — SID / Sync-Buzzer step computation.
   The Go code computes `uint32(timerFreq) * (1 << 31) / uint32(rate)`
   entirely in `uint32`, so the product wraps modulo `2^32` before the
   division: for every even timer frequency the stored step is 0
   instead of `timerFreq * 2^31 / rate`.
   ====================================================================== -/

/-- C2: at timer frequency 100 Hz on the standard 44100 Hz chip, both
`SidStart` and `SyncBuzzerStart` store step 0, while the specified
value `100 * 2^31 / 44100 = 4869577` is non-zero: the 32-bit product
`100 << 31` wraps to 0 before the division. -/
theorem c2_sid_step_overflow :
    (sidStart (newYm2149Ex 2000000 1 44100) 0 100 15).eff0.sidStep = 0 ∧
    (syncBuzzerStart (newYm2149Ex 2000000 1 44100) 100 8).syncBuzzerStep = 0 ∧
    100 * 2147483648 / 44100 = 4869577 ∧ (4869577 : ℕ) ≠ 0 := by
  refine ⟨by rfl, by rfl, by norm_num, by norm_num⟩

/- ======================================================================
   C4 — format tags.  `ymDecode` recognises YM2!/YM3!/YM3b/YM5!/YM6!
   and rejects YM4! as unsupported; MIX1, YMT1 and YMT2 have no case
   and fall into the unknown-format error, contradicting the claim.
   ====================================================================== -/

/-- C4 counterexample: a buffer whose tag is `MIX1` makes
`loadMemory` fail with the unknown-format error, although the claim
says MIX1 must not produce an unknown-format failure. -/
theorem c4_mix1_unknown_format :
    (loadMemory (newYmMusic 44100) [77, 73, 88, 49]).2 = some .unknownFormat ∧
    (loadMemory (newYmMusic 44100) [77, 73, 88, 49]).1.bMusicOk = false := by
  exact ⟨by rfl, by rfl⟩

theorem take4_shape {data : List ℕ} {a b c d : ℕ} (h : data.take 4 = [a, b, c, d]) :
    ∃ tl, data = a :: b :: c :: d :: tl := by
  rcases data with _ | ⟨x0, _ | ⟨x1, _ | ⟨x2, _ | ⟨x3, tl⟩⟩⟩⟩ <;> simp_all

theorem isLZH_false_of_byte2 {data : List ℕ} (h : data.getD 2 0 ≠ 45) :
    isLZHCompressed data = false := by
  unfold isLZHCompressed lzhPattern
  split
  · rfl
  · simp only [List.getD_eq_getElem?_getD] at h
    simp [h]

theorem depackFile_not_lzh (st : Music) (h : isLZHCompressed st.pBigMalloc = false) :
    depackFile st = .ok st.pBigMalloc := by
  unfold depackFile
  split
  · rfl
  · rw [h]
    rfl

theorem loadMemory_decode_err (st : Music) (data : List ℕ) (e : LoadErr)
    (hlzh : isLZHCompressed data = false)
    (hdec : ∀ m : Music, m.pBigMalloc = data → ymDecode m = .error e) :
    (loadMemory st data).2 = some e ∧ (loadMemory st data).1.bMusicOk = false := by
  unfold loadMemory
  dsimp only
  rw [depackFile_not_lzh _ hlzh]
  dsimp only
  rw [hdec _ rfl]
  exact ⟨rfl, rfl⟩

theorem ymDecode_unknown (m : Music) (h4 : ¬ m.pBigMalloc.length < 4)
    (h1 : readBE32 m.pBigMalloc ≠ 0x594D3221)
    (h2 : readBE32 m.pBigMalloc ≠ 0x594D3321)
    (h3 : readBE32 m.pBigMalloc ≠ 0x594D3362)
    (h5 : ¬(readBE32 m.pBigMalloc = 0x594D3521 ∨ readBE32 m.pBigMalloc = 0x594D3621))
    (h6 : readBE32 m.pBigMalloc ≠ 0x594D3421) :
    ymDecode m = .error .unknownFormat := by
  unfold ymDecode
  rw [if_neg h4, if_neg h1, if_neg h2, if_neg h3, if_neg h5, if_neg h6]

theorem ymDecode_ym4 (m : Music) (h4 : ¬ m.pBigMalloc.length < 4)
    (h1 : readBE32 m.pBigMalloc ≠ 0x594D3221)
    (h2 : readBE32 m.pBigMalloc ≠ 0x594D3321)
    (h3 : readBE32 m.pBigMalloc ≠ 0x594D3362)
    (h5 : ¬(readBE32 m.pBigMalloc = 0x594D3521 ∨ readBE32 m.pBigMalloc = 0x594D3621))
    (h6 : readBE32 m.pBigMalloc = 0x594D3421) :
    ymDecode m = .error .ym4Unsupported := by
  unfold ymDecode
  rw [if_neg h4, if_neg h1, if_neg h2, if_neg h3, if_neg h5, if_pos h6]

/-- C4 amended: `loadMemory` fails with the unknown-format error for
every buffer tagged `MIX1`, `YMT1` or `YMT2` (none of the nine spec
tags beyond the five implemented ones has a decoder case), and with
the unsupported-format error for `YM4!`; in all four cases no music is
loaded. -/
theorem c4_amended (st : Music) (data : List ℕ) :
    (data.take 4 = [77, 73, 88, 49] ∨ data.take 4 = [89, 77, 84, 49] ∨
        data.take 4 = [89, 77, 84, 50] →
      (loadMemory st data).2 = some .unknownFormat ∧
      (loadMemory st data).1.bMusicOk = false) ∧
    (data.take 4 = [89, 77, 52, 33] →
      (loadMemory st data).2 = some .ym4Unsupported ∧
      (loadMemory st data).1.bMusicOk = false) := by
  constructor
  · rintro (h | h | h) <;>
    · obtain ⟨tl, rfl⟩ := take4_shape h
      refine loadMemory_decode_err st _ .unknownFormat
        (isLZH_false_of_byte2 (by norm_num [List.getD])) ?_
      intro m hm
      refine ymDecode_unknown m ?_ ?_ ?_ ?_ ?_ ?_ <;>
        rw [hm] <;> norm_num [readBE32, List.getD]
  · intro h
    obtain ⟨tl, rfl⟩ := take4_shape h
    refine loadMemory_decode_err st _ .ym4Unsupported
      (isLZH_false_of_byte2 (by norm_num [List.getD])) ?_
    intro m hm
    refine ymDecode_ym4 m ?_ ?_ ?_ ?_ ?_ ?_ <;>
      rw [hm] <;> norm_num [readBE32, List.getD]

/-- C4 witness: the amended statement applied to the concrete `YMT1`
tag. -/
theorem c4_amended_witness :
    (loadMemory (newYmMusic 44100) [89, 77, 84, 49]).2 = some .unknownFormat ∧
    (loadMemory (newYmMusic 44100) [89, 77, 84, 49]).1.bMusicOk = false :=
  (c4_amended (newYmMusic 44100) [89, 77, 84, 49]).1 (Or.inr (Or.inl (by rfl)))

/- ======================================================================
   C7 — the "LeOnArD!" signature of YM5/YM6 files.
   ====================================================================== -/

theorem loadMemory_ok_shape (st : Music) (data : List ℕ) (P : Prop)
    (hlzh : isLZHCompressed data = false)
    (hP : ∀ m m' : Music, m.pBigMalloc = data → ymDecode m = .ok m' → P) :
    (loadMemory st data).2 = none → P := by
  unfold loadMemory
  dsimp only
  rw [depackFile_not_lzh _ hlzh]
  dsimp only
  split
  · intro h
    simp at h
  · intro _
    exact hP _ _ rfl (by assumption)

theorem ymDecode_ym5_sig (m : Music) (a : ℕ) (tl : List ℕ)
    (hbm : m.pBigMalloc = 89 :: 77 :: a :: 33 :: tl) (ha : a = 53 ∨ a = 54) :
    (m.pBigMalloc.length < 12 → ymDecode m = .error .oob) ∧
    (¬m.pBigMalloc.length < 12 → (m.pBigMalloc.drop 4).take 8 ≠ leonardSig →
      ymDecode m = .error .badSignature) ∧
    (∀ m', ymDecode m = .ok m' → (m.pBigMalloc.drop 4).take 8 = leonardSig) := by
  have h4 : ¬((89 :: 77 :: a :: 33 :: tl).length < 4) := by
    simp only [List.length_cons]
    omega
  have hc1 : m.pBigMalloc.length < 12 → ymDecode m = .error .oob := by
    intro h12
    rw [hbm] at h12
    simp only [List.length_cons] at h12
    rcases ha with rfl | rfl <;>
      (unfold ymDecode
       rw [hbm]
       rw [if_neg h4]
       norm_num [readBE32, List.getD]
       split <;> first | rfl | omega)
  have hc2 : ¬m.pBigMalloc.length < 12 → (m.pBigMalloc.drop 4).take 8 ≠ leonardSig →
      ymDecode m = .error .badSignature := by
    intro h12 hsig
    rw [hbm] at h12 hsig
    simp only [List.length_cons] at h12
    rcases ha with rfl | rfl <;>
      (unfold ymDecode
       rw [hbm]
       rw [if_neg h4]
       norm_num [readBE32, List.getD]
       split
       · omega
       · split <;> first | rfl | omega | simp_all)
  refine ⟨hc1, hc2, ?_⟩
  intro m' hok
  by_cases h12 : m.pBigMalloc.length < 12
  · rw [hc1 h12] at hok
    exact absurd hok (by simp)
  · by_contra hsig
    rw [hc2 h12 hsig] at hok
    exact absurd hok (by simp)

/-- C7: for every buffer tagged `YM5!` or `YM6!`, `loadMemory` succeeds
only if bytes 4..11 equal `"LeOnArD!"`; when they differ the load
returns an error (the bad-signature error whenever the buffer is long
enough for the comparison; the Go code panics on shorter buffers) and
the player is left with no music loaded. -/
theorem c7_signature (st : Music) (data : List ℕ)
    (htag : data.take 4 = [89, 77, 53, 33] ∨ data.take 4 = [89, 77, 54, 33]) :
    ((loadMemory st data).2 = none → (data.drop 4).take 8 = leonardSig) ∧
    ((data.drop 4).take 8 ≠ leonardSig →
      (loadMemory st data).2 ≠ none ∧ (loadMemory st data).1.bMusicOk = false ∧
      (12 ≤ data.length → (loadMemory st data).2 = some .badSignature)) := by
  have hshape : ∃ a tl, data = 89 :: 77 :: a :: 33 :: tl ∧ (a = 53 ∨ a = 54) := by
    rcases htag with h | h <;>
      (obtain ⟨tl, rfl⟩ := take4_shape h
       exact ⟨_, tl, rfl, by norm_num⟩)
  obtain ⟨a, tl, rfl, ha⟩ := hshape
  have hlzh : isLZHCompressed (89 :: 77 :: a :: 33 :: tl) = false := by
    apply isLZH_false_of_byte2
    rcases ha with rfl | rfl <;> norm_num [List.getD]
  constructor
  · exact loadMemory_ok_shape st _ _ hlzh (fun m m' hm hok => by
      have hs := (ymDecode_ym5_sig m a tl hm ha).2.2 m' hok
      rwa [hm] at hs)
  · intro hsig
    by_cases h12 : 12 ≤ (89 :: 77 :: a :: 33 :: tl).length
    · have herr := loadMemory_decode_err st (89 :: 77 :: a :: 33 :: tl) .badSignature hlzh
        (fun m hm => (ymDecode_ym5_sig m a tl hm ha).2.1
          (by rw [hm]; omega) (by rw [hm]; exact hsig))
      refine ⟨by rw [herr.1]; simp, herr.2, fun _ => herr.1⟩
    · have herr := loadMemory_decode_err st (89 :: 77 :: a :: 33 :: tl) .oob hlzh
        (fun m hm => (ymDecode_ym5_sig m a tl hm ha).1 (by rw [hm]; omega))
      refine ⟨by rw [herr.1]; simp, herr.2, fun hc => absurd hc h12⟩

set_option maxRecDepth 100000 in
/-- C7 witness: a 12-byte `YM5!` buffer whose signature starts with `X`
instead of `L` is rejected with the bad-signature error and leaves
`bMusicOk` false. -/
theorem c7_signature_witness :
    (loadMemory (newYmMusic 44100)
        [89, 77, 53, 33, 88, 101, 79, 110, 65, 114, 68, 33]).2 = some .badSignature ∧
    (loadMemory (newYmMusic 44100)
        [89, 77, 53, 33, 88, 101, 79, 110, 65, 114, 68, 33]).1.bMusicOk = false := by
  have h := (c7_signature (newYmMusic 44100)
      [89, 77, 53, 33, 88, 101, 79, 110, 65, 114, 68, 33] (Or.inl (by rfl))).2 (by decide)
  exact ⟨h.2.2 (by norm_num), h.2.1⟩

/- ======================================================================
   C1 — tone step recomputation on period-register writes.
   ====================================================================== -/

theorem writeRegEq0 (st : Ym2149) (data : ℤ) :
    writeRegister st 0 data =
      (let r := st.registers.set 0 (u8 (data % 256).toNat)
       let s := toneStepCompute st.internalClock st.replayFrequency (r.getD 1 0) (r.getD 0 0)
       { st with registers := r, stepA := s
                 posA := if s = 0 then 2147483648 else st.posA }) := rfl

theorem writeRegEq1 (st : Ym2149) (data : ℤ) :
    writeRegister st 1 data =
      (let r := st.registers.set 1 (u8 (data % 16).toNat)
       let s := toneStepCompute st.internalClock st.replayFrequency (r.getD 1 0) (r.getD 0 0)
       { st with registers := r, stepA := s
                 posA := if s = 0 then 2147483648 else st.posA }) := rfl

theorem writeRegEq2 (st : Ym2149) (data : ℤ) :
    writeRegister st 2 data =
      (let r := st.registers.set 2 (u8 (data % 256).toNat)
       let s := toneStepCompute st.internalClock st.replayFrequency (r.getD 3 0) (r.getD 2 0)
       { st with registers := r, stepB := s
                 posB := if s = 0 then 2147483648 else st.posB }) := rfl

theorem writeRegEq3 (st : Ym2149) (data : ℤ) :
    writeRegister st 3 data =
      (let r := st.registers.set 3 (u8 (data % 16).toNat)
       let s := toneStepCompute st.internalClock st.replayFrequency (r.getD 3 0) (r.getD 2 0)
       { st with registers := r, stepB := s
                 posB := if s = 0 then 2147483648 else st.posB }) := rfl

theorem writeRegEq4 (st : Ym2149) (data : ℤ) :
    writeRegister st 4 data =
      (let r := st.registers.set 4 (u8 (data % 256).toNat)
       let s := toneStepCompute st.internalClock st.replayFrequency (r.getD 5 0) (r.getD 4 0)
       { st with registers := r, stepC := s
                 posC := if s = 0 then 2147483648 else st.posC }) := rfl

theorem writeRegEq5 (st : Ym2149) (data : ℤ) :
    writeRegister st 5 data =
      (let r := st.registers.set 5 (u8 (data % 16).toNat)
       let s := toneStepCompute st.internalClock st.replayFrequency (r.getD 5 0) (r.getD 4 0)
       { st with registers := r, stepC := s
                 posC := if s = 0 then 2147483648 else st.posC }) := rfl

theorem toneStepCompute_exact (clock : ℕ) (rf : ℤ) (rH rL : ℕ)
    (hrf : 0 < rf)
    (hprod : (((rH % 16 : ℕ) : ℤ) * 256 + (rL : ℤ)) * rf < 2147483648)
    (hq : (clock : ℤ) * 268435456 / ((((rH % 16 : ℕ) : ℤ) * 256 + (rL : ℤ)) * rf) <
      4294967296) :
    ((toneStepCompute clock rf rH rL : ℤ) =
      if (((rH % 16 : ℕ) : ℤ) * 256 + (rL : ℤ)) ≤ 5 then 0
      else (clock : ℤ) * 268435456 / ((((rH % 16 : ℕ) : ℤ) * 256 + (rL : ℤ)) * rf)) := by
  unfold toneStepCompute
  split
  · simp_all
  · rename_i h
    rw [if_neg h]
    have hper : (5 : ℤ) < ((rH % 16 : ℕ) : ℤ) * 256 + (rL : ℤ) := by omega
    have hden : 0 < (((rH % 16 : ℕ) : ℤ) * 256 + (rL : ℤ)) * rf :=
      mul_pos (by omega) hrf
    rw [i32I_small (le_of_lt hden) hprod]
    have hnum : (0 : ℤ) ≤ (clock : ℤ) * 268435456 :=
      mul_nonneg (Int.natCast_nonneg clock) (by norm_num)
    rw [Int.tdiv_eq_ediv hnum (le_of_lt hden)]
    have hq0 : (0 : ℤ) ≤ (clock : ℤ) * 268435456 /
        ((((rH % 16 : ℕ) : ℤ) * 256 + (rL : ℤ)) * rf) :=
      Int.ediv_nonneg hnum (le_of_lt hden)
    rw [u32I_of_nonneg hq0 hq]
    exact Int.toNat_of_nonneg hq0

/-- C1: a write to any tone period register 0..5 recomputes the
affected voice's step: 0 when the new 12-bit period is at most 5, and
otherwise exactly `(internal_clock << 28) / (period * replay_rate)`
(the side conditions keep the `int32` product and the `uint32` result
in range, as they are for every real clock/rate configuration); and
whenever the recomputed step is 0, the voice's phase accumulator is
pinned to `0x80000000`. -/
theorem c1_tone_step_write (st : Ym2149) (reg data : ℤ) (h0 : 0 ≤ reg) (h5 : reg ≤ 5)
    (hrf : 0 < st.replayFrequency)
    (hprod : tonePeriod (writeRegister st reg data) (reg.toNat / 2) * st.replayFrequency <
      2147483648)
    (hq : (st.internalClock : ℤ) * 268435456 /
        (tonePeriod (writeRegister st reg data) (reg.toNat / 2) * st.replayFrequency) <
      4294967296) :
    ((toneStepOf (writeRegister st reg data) (reg.toNat / 2) : ℤ) =
      if tonePeriod (writeRegister st reg data) (reg.toNat / 2) ≤ 5 then 0
      else (st.internalClock : ℤ) * 268435456 /
          (tonePeriod (writeRegister st reg data) (reg.toNat / 2) * st.replayFrequency)) ∧
    (toneStepOf (writeRegister st reg data) (reg.toNat / 2) = 0 →
      tonePosOf (writeRegister st reg data) (reg.toNat / 2) = 2147483648) := by
  obtain ⟨n, rfl⟩ : ∃ n : ℕ, reg = (n : ℤ) := ⟨reg.toNat, (Int.toNat_of_nonneg h0).symm⟩
  have hn5 : n ≤ 5 := by exact_mod_cast h5
  simp only [Int.toNat_natCast] at hprod hq ⊢
  interval_cases n <;>
  · simp only [Nat.cast_ofNat, Nat.cast_zero, Nat.cast_one] at hprod hq ⊢
    first
    | rw [writeRegEq0 st data] at hprod hq ⊢
    | rw [writeRegEq1 st data] at hprod hq ⊢
    | rw [writeRegEq2 st data] at hprod hq ⊢
    | rw [writeRegEq3 st data] at hprod hq ⊢
    | rw [writeRegEq4 st data] at hprod hq ⊢
    | rw [writeRegEq5 st data] at hprod hq ⊢
    simp only [tonePeriod, toneStepOf, tonePosOf, Nat.reduceDiv, Nat.reduceMul,
      Nat.reduceAdd, Nat.zero_mul, Nat.zero_add, reduceIte] at hprod hq ⊢
    refine ⟨toneStepCompute_exact _ _ _ _ hrf hprod hq, ?_⟩
    intro hz
    norm_num at hz ⊢
    simp [hz]

set_option maxRecDepth 100000 in
/-- C1 witness: on the standard chip (2 MHz clock, 44100 Hz rate) with
the high period register at 1, writing 52 to register 0 gives period
308 and the exact step `2000000 * 2^28 / (308 * 44100)`. -/
theorem c1_tone_step_witness :
    tonePeriod (writeRegister (writeRegister (newYm2149Ex 2000000 1 44100) 1 1) 0 52) 0 =
      308 ∧
    ((toneStepOf (writeRegister (writeRegister (newYm2149Ex 2000000 1 44100) 1 1) 0 52)
        0 : ℤ) = (2000000 : ℤ) * 268435456 / (308 * 44100)) := by
  constructor
  · rfl
  · have h := (c1_tone_step_write (writeRegister (newYm2149Ex 2000000 1 44100) 1 1) 0 52
      (by norm_num) (by norm_num) (by decide) (by decide) (by decide)).1
    norm_num at h
    rw [h, if_neg (by decide)]
    decide

/- ======================================================================
   C8 — determinism.  The embedding of the whole player is a pure
   function of the input bytes and settings, so two runs with the same
   inputs coincide; `Reset` always leaves the noise LFSR at 1.
   ====================================================================== -/

/-- C8: after `Reset` the noise LFSR rack is the fixed value 1, and any
two runs that load the same bytes at the same rate with the same
filter and loop settings and serve the same `Update` calls produce
identical sample sequences (the embedded player is a pure function:
there is no other state or randomness). -/
theorem c8_determinism :
    (∀ st : Ym2149, (chipReset st).rndRack = 1) ∧
    (∀ (data : List ℕ) (rate : ℤ) (filt loopMode : Bool) (calls : List ℕ),
      runSequence data rate filt loopMode calls =
      runSequence data rate filt loopMode calls) := by
  exact ⟨fun st => rfl, fun _ _ _ _ _ => rfl⟩

/- ======================================================================
   C10 — ReadYmRegister.  The wrapper converts its `int` argument to
   `int32`, truncating to 32 bits, so an index such as `2^32` reads
   register 0 instead of returning -1; within the `int32` range the
   claim holds.
   ====================================================================== -/

/-- C10 counterexample: index `2^32` lies outside `0..13`, yet
`ReadYmRegister` returns register 0 (here 0, not -1), because the
`int → int32` conversion truncates `2^32` to 0. -/
theorem c10_index_truncation :
    readYmRegister (newYmMusic 44100) 4294967296 ≠ -1 ∧
    ¬((4294967296 : ℤ) ≤ 13) := by
  constructor
  · intro h
    have : readYmRegister (newYmMusic 44100) 4294967296 = 0 := by rfl
    omega
  · norm_num

/-- C10 amended: for every index in the `int32` range outside `0..13`,
`ReadYmRegister` returns -1 (general indices are first truncated to
`int32`); for an index in `0..13`, reading right after a write to that
register returns exactly the masked data byte that `WriteRegister`
stored. -/
theorem c10_amended (st : Music) (reg data : ℤ)
    (hlen : st.ymChip.registers.length = 14) :
    (-2147483648 ≤ reg → reg < 2147483648 → (reg < 0 ∨ 13 < reg) →
      readYmRegister st reg = -1) ∧
    (0 ≤ reg → reg ≤ 13 →
      readYmRegister { st with ymChip := writeRegister st.ymChip reg data } reg =
        registerMask reg data) := by
  constructor
  · intro h1 h2 h3
    unfold readYmRegister readRegister
    rw [i32I_range h1 h2]
    have : ¬(0 ≤ reg ∧ reg ≤ 13) := by omega
    simp [this]
  · intro h1 h2
    unfold readYmRegister readRegister
    have hr : i32I reg = reg := i32I_range (by omega) (by omega)
    rw [hr]
    simp only [h1, h2, and_self, if_true]
    interval_cases reg <;>
      (simp only [writeRegister, registerMask]
       norm_num
       first
       | (simp [List.getElem?_set, hlen, u8]
          omega)
       | (split <;>
           (simp [List.getElem?_set, hlen, u8]
            omega)))

/-- C10 witness: register 13 masked to its low 4 bits, and a negative
index. -/
theorem c10_amended_witness :
    readYmRegister { newYmMusic 44100 with
        ymChip := writeRegister (newYmMusic 44100).ymChip 13 255 } 13 = 15 ∧
    readYmRegister (newYmMusic 44100) (-5) = -1 := by
  constructor
  · have := (c10_amended (newYmMusic 44100) 13 255 (by rfl)).2 (by norm_num) (by norm_num)
    rw [this]
    rfl
  · exact (c10_amended (newYmMusic 44100) (-5) 0 (by rfl)).1 (by norm_num) (by norm_num)
      (Or.inl (by norm_num))

/- ======================================================================
   C9 — seek round-trip.  `GetPos` floors `frame*1000/rate` and
   `SetMusicTime` floors `time*rate/1000`; the round trip is the
   identity exactly when the floors cancel, i.e. when the player rate
   divides 1000 — with rate 3 a frame index of 1 comes back as 0.
   ====================================================================== -/

/-- A loaded seekable YM3-style state at player rate 3 with the cursor
on frame 1, used as the C9 counterexample. -/
def seekSt : Music :=
  { newYmMusic 44100 with songType := 1, nbFrame := 100, playerRate := 3
                          attrib := 9, currentFrame := 1, bMusicOk := true }

/-- C9 counterexample: at player rate 3 (which does not divide 1000),
`set_music_time(get_pos())` moves `currentFrame` from 1 to 0
(`get_pos` floors to 333 ms, seeking floors `333*3/1000` back to 0). -/
theorem c9_seek_not_identity :
    seekSt.currentFrame = 1 ∧ getPos seekSt = 333 ∧ isSeekable seekSt = true ∧
    (setMusicTime seekSt (getPos seekSt)).2.currentFrame = 0 := by
  refine ⟨by rfl, by rfl, by rfl, by rfl⟩

/-- C9 amended: on a loaded seekable register-stream state whose player
rate divides 1000 (true of every YM2/YM3 file, whose rate is 50) and
whose frame cursor is inside the song (with the frame count small
enough that the `uint32` arithmetic does not wrap),
`set_music_time(get_pos())` leaves `currentFrame` unchanged. -/
theorem c9_seek_roundtrip (st : Music)
    (hseek : isSeekable st = true)
    (hst0 : 0 ≤ st.songType) (hst5 : st.songType < 5)
    (hr0 : 0 < st.playerRate) (hrdvd : st.playerRate ∣ 1000)
    (hcf0 : 0 ≤ st.currentFrame) (hcf : st.currentFrame < st.nbFrame)
    (hnf : st.nbFrame * 1000 < 4294967296) :
    (setMusicTime st (getPos st)).2.currentFrame = st.currentFrame := by
  obtain ⟨k, hk⟩ := hrdvd
  have hk0 : 0 < k := by nlinarith
  have hr1000 : st.playerRate ≤ 1000 := by nlinarith
  have hcn32 : st.currentFrame < 4294967296 := by nlinarith
  have hbr1 : ¬(73 ≤ st.songType ∧ st.songType < 75) := by omega
  have hnfpos : 0 < st.nbFrame := by omega
  have hrn : u32I st.playerRate = st.playerRate.toNat :=
    u32I_of_nonneg (le_of_lt hr0) (by omega)
  have hcfn : u32I st.currentFrame = st.currentFrame.toNat :=
    u32I_of_nonneg hcf0 (by omega)
  have hnfn : u32I st.nbFrame = st.nbFrame.toNat :=
    u32I_of_nonneg (by omega) (by nlinarith)
  have hrkn : st.playerRate.toNat * k.toNat = 1000 := by
    have : ((st.playerRate.toNat * k.toNat : ℕ) : ℤ) = (1000 : ℤ) := by
      push_cast
      rw [Int.toNat_of_nonneg (le_of_lt hr0), Int.toNat_of_nonneg (le_of_lt hk0)]
      omega
    exact_mod_cast this
  have hrn0 : 0 < st.playerRate.toNat := by omega
  have hkn0 : 0 < k.toNat := by
    rcases Nat.eq_zero_or_pos k.toNat with h | h
    · rw [h] at hrkn; omega
    · exact h
  have hcnb : st.currentFrame.toNat * 1000 < 4294967296 := by
    have h1 : st.currentFrame.toNat < st.nbFrame.toNat := by omega
    have h2 : st.nbFrame.toNat * 1000 < 4294967296 := by omega
    nlinarith
  have hpos : getPos st = st.currentFrame.toNat * k.toNat := by
    unfold getPos
    rw [if_neg hbr1, if_pos ⟨hnfpos, hr0⟩, hcfn, hrn]
    unfold u32
    rw [Nat.mod_eq_of_lt hcnb]
    rw [show st.currentFrame.toNat * 1000 = st.currentFrame.toNat * k.toNat *
        st.playerRate.toNat by rw [mul_assoc, mul_comm k.toNat, hrkn]]
    exact Nat.mul_div_cancel _ hrn0
  have htime : getMusicTime st = st.nbFrame.toNat * k.toNat := by
    unfold getMusicTime
    rw [if_neg hbr1, if_pos ⟨hnfpos, hr0⟩, hnfn, hrn]
    unfold u32
    rw [Nat.mod_eq_of_lt (by omega)]
    rw [show st.nbFrame.toNat * 1000 = st.nbFrame.toNat * k.toNat *
        st.playerRate.toNat by rw [mul_assoc, mul_comm k.toNat, hrkn]]
    exact Nat.mul_div_cancel _ hrn0
  unfold setMusicTime
  rw [hseek]
  rw [if_neg (by simp)]
  rw [if_pos ⟨hst0, hst5⟩]
  try dsimp only
  rw [hpos, htime]
  rw [if_neg (show ¬ st.nbFrame.toNat * k.toNat ≤ st.currentFrame.toNat * k.toNat from by
        have h1 : st.currentFrame.toNat < st.nbFrame.toNat := by omega
        have h2 : st.currentFrame.toNat * k.toNat < st.nbFrame.toNat * k.toNat := by
          nlinarith
        omega)]
  rw [hrn]
  try dsimp only
  rw [show st.currentFrame.toNat * k.toNat * st.playerRate.toNat =
      st.currentFrame.toNat * 1000 from by rw [mul_assoc, mul_comm k.toNat, hrkn]]
  unfold u32
  rw [Nat.mod_eq_of_lt hcnb]
  rw [Nat.mul_div_cancel _ (by norm_num : (0 : ℕ) < 1000)]
  exact Int.toNat_of_nonneg hcf0


set_option maxRecDepth 100000 in
/-- C9 witness: rate 50 (which divides 1000), 100 frames, cursor on
frame 7: the seek round trip keeps `currentFrame = 7`. -/
theorem c9_seek_roundtrip_witness :
    (setMusicTime
        { newYmMusic 44100 with songType := 1, nbFrame := 100, playerRate := 50
                                attrib := 9, currentFrame := 7, bMusicOk := true }
        (getPos
          { newYmMusic 44100 with songType := 1, nbFrame := 100, playerRate := 50
                                  attrib := 9, currentFrame := 7, bMusicOk := true
          })).2.currentFrame = 7 := by
  have h := c9_seek_roundtrip
    { newYmMusic 44100 with songType := 1, nbFrame := 100, playerRate := 50
                            attrib := 9, currentFrame := 7, bMusicOk := true }
    (by rfl) (by norm_num) (by norm_num) (by norm_num) (by decide)
    (by norm_num) (by norm_num) (by norm_num)
  rw [h]

/- ======================================================================
   C3 — Update fills exactly n samples; the returned flag.
   ====================================================================== -/

theorem readYm5_inner (st : Music) (d : List ℕ) :
    (readYm5Effects st d).innerSamplePos = st.innerSamplePos := by
  unfold readYm5Effects
  dsimp only
  repeat' split
  all_goals rfl

theorem readYm6_inner (st : Music) (d : List ℕ) (c p q : ℕ) :
    (readYm6Effect st d c p q).innerSamplePos = st.innerSamplePos := by
  unfold readYm6Effect
  dsimp only
  repeat' split
  all_goals rfl

theorem playerBody_inner (st : Music) :
    (playerBody st).innerSamplePos = st.innerSamplePos := by
  unfold playerBody
  dsimp only
  repeat' split
  all_goals simp [readYm5_inner, readYm6_inner]

theorem player_inner (st : Music) :
    (player st).innerSamplePos = st.innerSamplePos := by
  unfold player
  dsimp only
  repeat' split
  all_goals simp [playerBody_inner]

theorem updateLoop_length (vbl : ℤ) (hv : 0 < vbl) (f : ℕ) :
    ∀ (nbs : ℤ) (st : Music), 0 ≤ nbs → nbs ≤ (f : ℤ) →
      0 ≤ st.innerSamplePos → st.innerSamplePos < vbl →
      (updateLoop vbl f nbs st).1.length = nbs.toNat := by
  induction f with
  | zero =>
    intro nbs st h0 hf _ _
    have hz : nbs = 0 := by omega
    simp [updateLoop, hz]
  | succ k ih =>
    intro nbs st h0 hf hi0 hiv
    by_cases hpos : 0 < nbs
    case neg =>
      have hz : nbs = 0 := by omega
      simp [updateLoop, hpos, hz]
    case pos =>
      unfold updateLoop
      rw [if_pos hpos]
      dsimp only
      set stc : ℤ := if vbl - st.innerSamplePos > nbs then nbs else vbl - st.innerSamplePos
        with hstc
      have h1 : 1 ≤ stc := by rw [hstc]; split <;> omega
      have h2 : stc ≤ nbs := by rw [hstc]; split <;> omega
      have h3 : stc ≤ vbl - st.innerSamplePos := by rw [hstc]; split <;> omega
      rw [List.length_append]
      rw [if_pos (show (0 : ℤ) < stc by omega)]
      dsimp only
      rw [chipUpdate_length]
      split
      · rename_i hge
        rw [ih (nbs - stc) _ (by omega) (by omega)
            (by simp [player_inner]; omega) (by simp [player_inner]; omega)]
        omega
      · rename_i hlt
        rw [ih (nbs - stc) _ (by omega) (by omega)
            (by simp; omega) (by simp; omega)]
        omega

/-- A loaded player that has reached the over-state while looping is
enabled, used as the C3 counterexample. -/
def overSt : Music :=
  { newYmMusic 44100 with bMusicOk := true, bMusicOver := true, bLoop := true }

/-- C3 counterexample: `Update` returns `false` whenever the over-state
flag is set, even with looping on — so "false iff over-state with
looping off", as the claim states it, fails on this loaded player. -/
theorem c3_flag_ignores_loop :
    overSt.bLoop = true ∧ (update overSt 1).2.2 = false ∧
    ¬((update overSt 1).2.2 = false ↔ (overSt.bMusicOver = true ∧ overSt.bLoop = false)) := by
  refine ⟨rfl, rfl, ?_⟩
  intro h
  have := h.mp rfl
  simp [overSt] at this

/-- C3 amended: on a loaded register-stream player (the only kind
`ymDecode` produces) whose player rate is positive and at most the
output rate (otherwise the Go VBL loop divides by zero or never
terminates), and whose inner sample cursor lies inside the current VBL
block (`0 ≤ innerSamplePos < replayRate/playerRate` - true on a fresh
player and preserved by `Update` itself, but not guaranteed across a
reload, since no load or stop path ever resets the cursor: a stale
cursor from a previous lower-rate song makes the Go loop compute a
negative sample count and overrun/panic on the caller's buffer),
`Update(buf, n)` writes exactly `n` samples; the returned flag is false
iff the player was already in the over-state - regardless of the loop
flag - and whenever it is false all `n` written samples are zero. -/
theorem c3_update_exact (st : Music) (n : ℕ)
    (hsong0 : 0 ≤ st.songType) (hsong5 : st.songType < 5)
    (hr : 0 < st.playerRate) (hrr : st.playerRate ≤ st.replayRate)
    (hin0 : 0 ≤ st.innerSamplePos)
    (hinv : st.innerSamplePos < Int.tdiv st.replayRate st.playerRate) :
    ((update st n).1.length = n) ∧
    ((update st n).2.2 = false ↔ st.bMusicOver = true) ∧
    ((update st n).2.2 = false → (update st n).1 = List.replicate n 0) := by
  have hvb : 0 < Int.tdiv st.replayRate st.playerRate := by omega
  unfold update
  split
  · rename_i hstop
    refine ⟨by simp, ?_, ?_⟩
    · cases hb : st.bMusicOver <;> simp [hb]
    · intro _
      split <;> rfl
  · rename_i hgo
    have hover : ¬ st.bMusicOver = true := by
      intro hb
      exact hgo (Or.inr (Or.inr (by simp [hb])))
    rw [if_neg (by omega), if_neg (by omega)]
    refine ⟨?_, by simp [hover], by simp⟩
    have := updateLoop_length _ hvb n (n : ℤ) st (by omega) (by omega) hin0 hinv
    simpa using this

/-- C3 witness: a loaded YM3-style state (rate 50 into 44100 Hz output)
produces exactly two samples for `n = 2` and keeps playing. -/
theorem c3_update_exact_witness :
    ((update { newYmMusic 44100 with bMusicOk := true, songType := 1, playerRate := 50
                                     nbFrame := 1, streamInc := 14 } 2).1.length = 2) ∧
    ((update { newYmMusic 44100 with bMusicOk := true, songType := 1, playerRate := 50
                                     nbFrame := 1, streamInc := 14 } 2).2.2 = false ↔
      ({ newYmMusic 44100 with bMusicOk := true, songType := 1, playerRate := 50
                               nbFrame := 1, streamInc := 14 } : Music).bMusicOver = true) := by
  have h := c3_update_exact
    { newYmMusic 44100 with bMusicOk := true, songType := 1, playerRate := 50
                            nbFrame := 1, streamInc := 14 } 2
    (by decide) (by decide) (by decide) (by decide) (by decide) (by decide)
  exact ⟨h.1, h.2.1⟩

/- ======================================================================
   C6 — contribution of a voice whose tone period is at most 5.
   The pinned accumulator makes the square gate all-ones, but the
   noise gate `currentNoise | mixerNA` still multiplies in: with noise
   enabled and the LFSR low, the contribution is 0, not the voice
   volume.  With the voice's noise disabled (mask 0xffff) and the
   amplitude mode bit clear, the contribution is the voice volume on
   every subsequent sample.
   ====================================================================== -/

/-- The A-voice fields of the chip state that the C6 argument tracks. -/
def aView (st : Ym2149) : ℕ × ℕ × ℕ × Bool × Bool × Bool × ℤ :=
  (st.stepA, st.posA, st.mixerNA, st.pVolA, st.eff0.sid, st.eff0.drum, st.volA)

theorem afterNoise_aView (st : Ym2149) : aView (afterNoise st) = aView st := by
  unfold afterNoise aView
  split <;> rfl

theorem afterEnv_aView (st : Ym2149) : aView (afterEnv st) = aView st := rfl

theorem afterNoise_eff0 (st : Ym2149) : (afterNoise st).eff0 = st.eff0 := by
  unfold afterNoise
  split <;> rfl

theorem afterEnv_eff0 (st : Ym2149) : (afterEnv st).eff0 = st.eff0 := rfl

theorem sidVC0_of_off (st : Ym2149) (hs : st.eff0.sid = false)
    (hd : st.eff0.drum = false) : sidVolumeCompute st 0 = st := by
  unfold sidVolumeCompute getEff
  simp [hs, hd]

theorem sidVC1_aView (st : Ym2149) : aView (sidVolumeCompute st 1) = aView st := by
  unfold sidVolumeCompute getEff drumApply setEff aView
  norm_num
  repeat' split
  all_goals first
    | rfl
    | exact ⟨rfl, rfl, rfl, rfl, rfl, rfl, rfl⟩

theorem sidVC2_aView (st : Ym2149) : aView (sidVolumeCompute st 2) = aView st := by
  unfold sidVolumeCompute getEff drumApply setEff aView
  norm_num
  repeat' split
  all_goals first
    | rfl
    | exact ⟨rfl, rfl, rfl, rfl, rfl, rfl, rfl⟩

theorem effState_aView (st : Ym2149) (hs : st.eff0.sid = false)
    (hd : st.eff0.drum = false) : aView (effState st) = aView st := by
  unfold effState
  rw [sidVC0_of_off (afterEnv (afterNoise st))
      (by rw [afterEnv_eff0, afterNoise_eff0]; exact hs)
      (by rw [afterEnv_eff0, afterNoise_eff0]; exact hd)]
  rw [sidVC2_aView, sidVC1_aView, afterEnv_aView, afterNoise_aView]

theorem toneSign_pinned : toneSign 2147483648 = 4294967295 := by decide

/-- The voice-A addend on a state whose accumulator is pinned and whose
noise mask is all-ones: it is exactly the (16-bit) voice volume. -/
theorem volTermA_pinned (s : Ym2149)
    (hpos : s.posA = 2147483648) (hN : s.mixerNA = 65535) (hp : s.pVolA = false)
    (hv0 : 0 ≤ s.volA) (hv : s.volA < 65536) :
    volTermA s = s.volA := by
  unfold volTermA btOf
  rw [hpos, hN, hp, toneSign_pinned]
  simp only [Bool.false_eq_true, if_false]
  unfold i32land
  rw [u32I_of_nonneg hv0 (by omega)]
  have hbt : ∀ i, i < 16 →
      (u32 ((4294967295 ||| s.mixerTA) &&& (s.currentNoise ||| 65535))).testBit i = true := by
    intro i hi
    have h32 : i < 32 := by omega
    unfold u32
    rw [show (4294967296 : ℕ) = 2 ^ 32 from rfl]
    rw [Nat.testBit_mod_two_pow, Nat.testBit_land, Nat.testBit_lor, Nat.testBit_lor]
    rw [show (4294967295 : ℕ) = 2 ^ 32 - 1 from rfl, show (65535 : ℕ) = 2 ^ 16 - 1 from rfl]
    rw [Nat.testBit_two_pow_sub_one, Nat.testBit_two_pow_sub_one]
    simp [h32, hi]
  rw [land_low16 _ _ (by omega) hbt]
  rw [toS32_small (by omega)]
  exact Int.toNat_of_nonneg hv0

theorem advanceState_A (s : Ym2149) (vol : ℤ)
    (hstep : s.stepA = 0) (hpos : s.posA = 2147483648) :
    (advanceState s vol).2.stepA = 0 ∧ (advanceState s vol).2.posA = 2147483648 ∧
    (advanceState s vol).2.mixerNA = s.mixerNA ∧ (advanceState s vol).2.pVolA = s.pVolA ∧
    (advanceState s vol).2.volA = s.volA ∧ (advanceState s vol).2.eff0.sid = s.eff0.sid ∧
    (advanceState s vol).2.eff0.drum = s.eff0.drum := by
  unfold advanceState
  dsimp only
  repeat' split
  all_goals refine ⟨hstep, ?_, rfl, rfl, rfl, rfl, rfl⟩
  all_goals show u32 (s.posA + s.stepA) = 2147483648
  all_goals rw [hpos, hstep]
  all_goals decide

theorem nextSample_A (st : Ym2149)
    (hstep : st.stepA = 0) (hpos : st.posA = 2147483648)
    (hsid : st.eff0.sid = false) (hdrum : st.eff0.drum = false) :
    (nextSample st).2.stepA = 0 ∧ (nextSample st).2.posA = 2147483648 ∧
    (nextSample st).2.mixerNA = st.mixerNA ∧ (nextSample st).2.pVolA = st.pVolA ∧
    (nextSample st).2.volA = st.volA ∧ (nextSample st).2.eff0.sid = false ∧
    (nextSample st).2.eff0.drum = false := by
  have h := effState_aView st hsid hdrum
  simp only [aView, Prod.mk.injEq] at h
  have ha := advanceState_A (effState st) (i32I (volTermA (effState st) +
      volTermB (effState st) + volTermC (effState st)))
    (by rw [h.1]; exact hstep) (by rw [h.2.1]; exact hpos)
  unfold nextSample
  refine ⟨ha.1, ha.2.1, ?_, ?_, ?_, ?_, ?_⟩
  · rw [ha.2.2.1, h.2.2.1]
  · rw [ha.2.2.2.1, h.2.2.2.1]
  · rw [ha.2.2.2.2.1, h.2.2.2.2.2.2]
  · rw [ha.2.2.2.2.2.1, h.2.2.2.2.1]; exact hsid
  · rw [ha.2.2.2.2.2.2, h.2.2.2.2.2.1]; exact hdrum

theorem c6_aux (v : ℤ) (hv0 : 0 ≤ v) (hv16 : v < 65536) (k : ℕ) :
    ∀ st : Ym2149, st.stepA = 0 → st.posA = 2147483648 → st.mixerNA = 65535 →
      st.pVolA = false → st.eff0.sid = false → st.eff0.drum = false → st.volA = v →
      voiceContribA ((chipUpdate st k).2) = v := by
  induction k with
  | zero =>
    intro st h1 h2 h3 h4 h5 h6 h7
    have h := effState_aView st h5 h6
    simp only [aView, Prod.mk.injEq] at h
    show volTermA (effState st) = v
    rw [volTermA_pinned (effState st) (by rw [h.2.1]; exact h2)
        (by rw [h.2.2.1]; exact h3) (by rw [h.2.2.2.1]; exact h4)
        (by rw [h.2.2.2.2.2.2, h7]; exact hv0)
        (by rw [h.2.2.2.2.2.2, h7]; exact hv16)]
    rw [h.2.2.2.2.2.2, h7]
  | succ k ih =>
    intro st h1 h2 h3 h4 h5 h6 h7
    have ha := nextSample_A st h1 h2 h5 h6
    show voiceContribA ((chipUpdate (nextSample st).2 k).2) = v
    exact ih (nextSample st).2 ha.1 ha.2.1 (by rw [ha.2.2.1]; exact h3)
      (by rw [ha.2.2.2.1]; exact h4) ha.2.2.2.2.2.1 ha.2.2.2.2.2.2
      (by rw [ha.2.2.2.2.1]; exact h7)

theorem ymVolumeTable_bound (i : ℕ) :
    0 ≤ ymVolumeTable.getD i 0 ∧ ymVolumeTable.getD i 0 < 65536 := by
  rw [List.getD_eq_getElem?_getD]
  cases h : ymVolumeTable[i]? with
  | none => simp
  | some v =>
    have hv : v ∈ ymVolumeTable := by
      have := List.getElem?_eq_some_iff.mp h
      obtain ⟨hlt, hget⟩ := this
      exact hget ▸ List.getElem_mem hlt
    have hall : ∀ x ∈ ymVolumeTable, 0 ≤ x ∧ x < 65536 := by decide
    simpa using hall v hv

/-- A chip state with voice A's period at 2 (pinned), full volume, tone
gate closed but noise gate open, and the noise LFSR currently low: the
C6 counterexample. -/
def c6St : Ym2149 :=
  { writeRegister (writeRegister (writeRegister (newYm2149Ex 2000000 1 44100) 0 2) 8 15)
      7 247 with currentNoise := 0 }

/-- C6 counterexample: voice A has period 2 (≤ 5, step 0, accumulator
pinned) and volume `volume_table[15] = 10922`, yet because its noise
mixer bit is enabled and the current noise word is 0, its contribution
to the next sample is 0, not the voice volume — the claim's "for all
inputs (regardless of the mixer bits)" fails. -/
theorem c6_noise_gates_pinned_voice :
    tonePeriod c6St 0 ≤ 5 ∧ c6St.stepA = 0 ∧ c6St.posA = 2147483648 ∧
    ymVolumeTable.getD (c6St.registers.getD 8 0 % 16) 0 = 10922 ∧
    voiceContribA c6St = 0 := by
  refine ⟨by decide, by decide, by decide, by decide, by decide⟩

/-- The B-voice fields of the chip state that the C6 argument tracks. -/
def bView (st : Ym2149) : ℕ × ℕ × ℕ × Bool × Bool × Bool × ℤ :=
  (st.stepB, st.posB, st.mixerNB, st.pVolB, st.eff1.sid, st.eff1.drum, st.volB)

/-- The C-voice fields of the chip state that the C6 argument tracks. -/
def cView (st : Ym2149) : ℕ × ℕ × ℕ × Bool × Bool × Bool × ℤ :=
  (st.stepC, st.posC, st.mixerNC, st.pVolC, st.eff2.sid, st.eff2.drum, st.volC)

theorem afterNoise_bView (st : Ym2149) : bView (afterNoise st) = bView st := by
  unfold afterNoise bView
  split <;> rfl

theorem afterEnv_bView (st : Ym2149) : bView (afterEnv st) = bView st := rfl

theorem afterNoise_cView (st : Ym2149) : cView (afterNoise st) = cView st := by
  unfold afterNoise cView
  split <;> rfl

theorem afterEnv_cView (st : Ym2149) : cView (afterEnv st) = cView st := rfl

theorem sidVC1_of_off (st : Ym2149) (hs : st.eff1.sid = false)
    (hd : st.eff1.drum = false) : sidVolumeCompute st 1 = st := by
  unfold sidVolumeCompute getEff
  simp [hs, hd]

theorem sidVC2_of_off (st : Ym2149) (hs : st.eff2.sid = false)
    (hd : st.eff2.drum = false) : sidVolumeCompute st 2 = st := by
  unfold sidVolumeCompute getEff
  simp [hs, hd]

theorem sidVC0_bView (st : Ym2149) : bView (sidVolumeCompute st 0) = bView st := by
  unfold sidVolumeCompute getEff drumApply setEff bView
  norm_num
  repeat' split
  all_goals first
    | rfl
    | exact ⟨rfl, rfl, rfl, rfl, rfl, rfl, rfl⟩

theorem sidVC2_bView (st : Ym2149) : bView (sidVolumeCompute st 2) = bView st := by
  unfold sidVolumeCompute getEff drumApply setEff bView
  norm_num
  repeat' split
  all_goals first
    | rfl
    | exact ⟨rfl, rfl, rfl, rfl, rfl, rfl, rfl⟩

theorem sidVC0_cView (st : Ym2149) : cView (sidVolumeCompute st 0) = cView st := by
  unfold sidVolumeCompute getEff drumApply setEff cView
  norm_num
  repeat' split
  all_goals first
    | rfl
    | exact ⟨rfl, rfl, rfl, rfl, rfl, rfl, rfl⟩

theorem sidVC1_cView (st : Ym2149) : cView (sidVolumeCompute st 1) = cView st := by
  unfold sidVolumeCompute getEff drumApply setEff cView
  norm_num
  repeat' split
  all_goals first
    | rfl
    | exact ⟨rfl, rfl, rfl, rfl, rfl, rfl, rfl⟩

theorem effState_bView (st : Ym2149) (hs : st.eff1.sid = false)
    (hd : st.eff1.drum = false) : bView (effState st) = bView st := by
  unfold effState
  have hb : bView (sidVolumeCompute (afterEnv (afterNoise st)) 0) = bView st := by
    rw [sidVC0_bView, afterEnv_bView, afterNoise_bView]
  have hbc := hb
  simp only [bView, Prod.mk.injEq] at hbc
  rw [sidVC2_bView,
      sidVC1_of_off _ (by rw [hbc.2.2.2.2.1]; exact hs)
        (by rw [hbc.2.2.2.2.2.1]; exact hd),
      hb]

theorem effState_cView (st : Ym2149) (hs : st.eff2.sid = false)
    (hd : st.eff2.drum = false) : cView (effState st) = cView st := by
  unfold effState
  have hc : cView (sidVolumeCompute (sidVolumeCompute (afterEnv (afterNoise st)) 0) 1)
      = cView st := by
    rw [sidVC1_cView, sidVC0_cView, afterEnv_cView, afterNoise_cView]
  have hcc := hc
  simp only [cView, Prod.mk.injEq] at hcc
  rw [sidVC2_of_off _ (by rw [hcc.2.2.2.2.1]; exact hs)
        (by rw [hcc.2.2.2.2.2.1]; exact hd),
      hc]

/-- The voice-B addend on a state whose accumulator is pinned and whose
noise mask is all-ones: it is exactly the (16-bit) voice volume. -/
theorem volTermB_pinned (s : Ym2149)
    (hpos : s.posB = 2147483648) (hN : s.mixerNB = 65535) (hp : s.pVolB = false)
    (hv0 : 0 ≤ s.volB) (hv : s.volB < 65536) :
    volTermB s = s.volB := by
  unfold volTermB btOf
  rw [hpos, hN, hp, toneSign_pinned]
  simp only [Bool.false_eq_true, if_false]
  unfold i32land
  rw [u32I_of_nonneg hv0 (by omega)]
  have hbt : ∀ i, i < 16 →
      (u32 ((4294967295 ||| s.mixerTB) &&& (s.currentNoise ||| 65535))).testBit i = true := by
    intro i hi
    have h32 : i < 32 := by omega
    unfold u32
    rw [show (4294967296 : ℕ) = 2 ^ 32 from rfl]
    rw [Nat.testBit_mod_two_pow, Nat.testBit_land, Nat.testBit_lor, Nat.testBit_lor]
    rw [show (4294967295 : ℕ) = 2 ^ 32 - 1 from rfl, show (65535 : ℕ) = 2 ^ 16 - 1 from rfl]
    rw [Nat.testBit_two_pow_sub_one, Nat.testBit_two_pow_sub_one]
    simp [h32, hi]
  rw [land_low16 _ _ (by omega) hbt]
  rw [toS32_small (by omega)]
  exact Int.toNat_of_nonneg hv0

/-- The voice-C addend on a state whose accumulator is pinned and whose
noise mask is all-ones: it is exactly the (16-bit) voice volume. -/
theorem volTermC_pinned (s : Ym2149)
    (hpos : s.posC = 2147483648) (hN : s.mixerNC = 65535) (hp : s.pVolC = false)
    (hv0 : 0 ≤ s.volC) (hv : s.volC < 65536) :
    volTermC s = s.volC := by
  unfold volTermC btOf
  rw [hpos, hN, hp, toneSign_pinned]
  simp only [Bool.false_eq_true, if_false]
  unfold i32land
  rw [u32I_of_nonneg hv0 (by omega)]
  have hbt : ∀ i, i < 16 →
      (u32 ((4294967295 ||| s.mixerTC) &&& (s.currentNoise ||| 65535))).testBit i = true := by
    intro i hi
    have h32 : i < 32 := by omega
    unfold u32
    rw [show (4294967296 : ℕ) = 2 ^ 32 from rfl]
    rw [Nat.testBit_mod_two_pow, Nat.testBit_land, Nat.testBit_lor, Nat.testBit_lor]
    rw [show (4294967295 : ℕ) = 2 ^ 32 - 1 from rfl, show (65535 : ℕ) = 2 ^ 16 - 1 from rfl]
    rw [Nat.testBit_two_pow_sub_one, Nat.testBit_two_pow_sub_one]
    simp [h32, hi]
  rw [land_low16 _ _ (by omega) hbt]
  rw [toS32_small (by omega)]
  exact Int.toNat_of_nonneg hv0

theorem advanceState_B (s : Ym2149) (vol : ℤ)
    (hstep : s.stepB = 0) (hpos : s.posB = 2147483648) :
    (advanceState s vol).2.stepB = 0 ∧ (advanceState s vol).2.posB = 2147483648 ∧
    (advanceState s vol).2.mixerNB = s.mixerNB ∧ (advanceState s vol).2.pVolB = s.pVolB ∧
    (advanceState s vol).2.volB = s.volB ∧ (advanceState s vol).2.eff1.sid = s.eff1.sid ∧
    (advanceState s vol).2.eff1.drum = s.eff1.drum := by
  unfold advanceState
  dsimp only
  repeat' split
  all_goals refine ⟨hstep, ?_, rfl, rfl, rfl, rfl, rfl⟩
  all_goals show u32 (s.posB + s.stepB) = 2147483648
  all_goals rw [hpos, hstep]
  all_goals decide

theorem advanceState_C (s : Ym2149) (vol : ℤ)
    (hstep : s.stepC = 0) (hpos : s.posC = 2147483648) :
    (advanceState s vol).2.stepC = 0 ∧ (advanceState s vol).2.posC = 2147483648 ∧
    (advanceState s vol).2.mixerNC = s.mixerNC ∧ (advanceState s vol).2.pVolC = s.pVolC ∧
    (advanceState s vol).2.volC = s.volC ∧ (advanceState s vol).2.eff2.sid = s.eff2.sid ∧
    (advanceState s vol).2.eff2.drum = s.eff2.drum := by
  unfold advanceState
  dsimp only
  repeat' split
  all_goals refine ⟨hstep, ?_, rfl, rfl, rfl, rfl, rfl⟩
  all_goals show u32 (s.posC + s.stepC) = 2147483648
  all_goals rw [hpos, hstep]
  all_goals decide

theorem nextSample_B (st : Ym2149)
    (hstep : st.stepB = 0) (hpos : st.posB = 2147483648)
    (hsid : st.eff1.sid = false) (hdrum : st.eff1.drum = false) :
    (nextSample st).2.stepB = 0 ∧ (nextSample st).2.posB = 2147483648 ∧
    (nextSample st).2.mixerNB = st.mixerNB ∧ (nextSample st).2.pVolB = st.pVolB ∧
    (nextSample st).2.volB = st.volB ∧ (nextSample st).2.eff1.sid = false ∧
    (nextSample st).2.eff1.drum = false := by
  have h := effState_bView st hsid hdrum
  simp only [bView, Prod.mk.injEq] at h
  have ha := advanceState_B (effState st) (i32I (volTermA (effState st) +
      volTermB (effState st) + volTermC (effState st)))
    (by rw [h.1]; exact hstep) (by rw [h.2.1]; exact hpos)
  unfold nextSample
  refine ⟨ha.1, ha.2.1, ?_, ?_, ?_, ?_, ?_⟩
  · rw [ha.2.2.1, h.2.2.1]
  · rw [ha.2.2.2.1, h.2.2.2.1]
  · rw [ha.2.2.2.2.1, h.2.2.2.2.2.2]
  · rw [ha.2.2.2.2.2.1, h.2.2.2.2.1]; exact hsid
  · rw [ha.2.2.2.2.2.2, h.2.2.2.2.2.1]; exact hdrum

theorem nextSample_C (st : Ym2149)
    (hstep : st.stepC = 0) (hpos : st.posC = 2147483648)
    (hsid : st.eff2.sid = false) (hdrum : st.eff2.drum = false) :
    (nextSample st).2.stepC = 0 ∧ (nextSample st).2.posC = 2147483648 ∧
    (nextSample st).2.mixerNC = st.mixerNC ∧ (nextSample st).2.pVolC = st.pVolC ∧
    (nextSample st).2.volC = st.volC ∧ (nextSample st).2.eff2.sid = false ∧
    (nextSample st).2.eff2.drum = false := by
  have h := effState_cView st hsid hdrum
  simp only [cView, Prod.mk.injEq] at h
  have ha := advanceState_C (effState st) (i32I (volTermA (effState st) +
      volTermB (effState st) + volTermC (effState st)))
    (by rw [h.1]; exact hstep) (by rw [h.2.1]; exact hpos)
  unfold nextSample
  refine ⟨ha.1, ha.2.1, ?_, ?_, ?_, ?_, ?_⟩
  · rw [ha.2.2.1, h.2.2.1]
  · rw [ha.2.2.2.1, h.2.2.2.1]
  · rw [ha.2.2.2.2.1, h.2.2.2.2.2.2]
  · rw [ha.2.2.2.2.2.1, h.2.2.2.2.1]; exact hsid
  · rw [ha.2.2.2.2.2.2, h.2.2.2.2.2.1]; exact hdrum

theorem c6_auxB (v : ℤ) (hv0 : 0 ≤ v) (hv16 : v < 65536) (k : ℕ) :
    ∀ st : Ym2149, st.stepB = 0 → st.posB = 2147483648 → st.mixerNB = 65535 →
      st.pVolB = false → st.eff1.sid = false → st.eff1.drum = false → st.volB = v →
      voiceContribB ((chipUpdate st k).2) = v := by
  induction k with
  | zero =>
    intro st h1 h2 h3 h4 h5 h6 h7
    have h := effState_bView st h5 h6
    simp only [bView, Prod.mk.injEq] at h
    show volTermB (effState st) = v
    rw [volTermB_pinned (effState st) (by rw [h.2.1]; exact h2)
        (by rw [h.2.2.1]; exact h3) (by rw [h.2.2.2.1]; exact h4)
        (by rw [h.2.2.2.2.2.2, h7]; exact hv0)
        (by rw [h.2.2.2.2.2.2, h7]; exact hv16)]
    rw [h.2.2.2.2.2.2, h7]
  | succ k ih =>
    intro st h1 h2 h3 h4 h5 h6 h7
    have ha := nextSample_B st h1 h2 h5 h6
    show voiceContribB ((chipUpdate (nextSample st).2 k).2) = v
    exact ih (nextSample st).2 ha.1 ha.2.1 (by rw [ha.2.2.1]; exact h3)
      (by rw [ha.2.2.2.1]; exact h4) ha.2.2.2.2.2.1 ha.2.2.2.2.2.2
      (by rw [ha.2.2.2.2.1]; exact h7)

theorem c6_auxC (v : ℤ) (hv0 : 0 ≤ v) (hv16 : v < 65536) (k : ℕ) :
    ∀ st : Ym2149, st.stepC = 0 → st.posC = 2147483648 → st.mixerNC = 65535 →
      st.pVolC = false → st.eff2.sid = false → st.eff2.drum = false → st.volC = v →
      voiceContribC ((chipUpdate st k).2) = v := by
  induction k with
  | zero =>
    intro st h1 h2 h3 h4 h5 h6 h7
    have h := effState_cView st h5 h6
    simp only [cView, Prod.mk.injEq] at h
    show volTermC (effState st) = v
    rw [volTermC_pinned (effState st) (by rw [h.2.1]; exact h2)
        (by rw [h.2.2.1]; exact h3) (by rw [h.2.2.2.1]; exact h4)
        (by rw [h.2.2.2.2.2.2, h7]; exact hv0)
        (by rw [h.2.2.2.2.2.2, h7]; exact hv16)]
    rw [h.2.2.2.2.2.2, h7]
  | succ k ih =>
    intro st h1 h2 h3 h4 h5 h6 h7
    have ha := nextSample_C st h1 h2 h5 h6
    show voiceContribC ((chipUpdate (nextSample st).2 k).2) = v
    exact ih (nextSample st).2 ha.1 ha.2.1 (by rw [ha.2.2.1]; exact h3)
      (by rw [ha.2.2.2.1]; exact h4) ha.2.2.2.2.2.1 ha.2.2.2.2.2.2
      (by rw [ha.2.2.2.2.1]; exact h7)

/-- C6 amended: for each of the three voices, if the voice's tone step
is 0 with the accumulator pinned to `0x80000000` (as after any period
≤ 5 write), its noise mixer bit is disabled (mask 0xffff), its
amplitude register's mode bit is clear, and no SID or DigiDrum effect
runs on it, then on every subsequent `nextSample` call that voice
contributes exactly its volume `volume_table[amplitude_register & 15]`
to the summed output. -/
theorem c6_pinned_constant_contribution (st : Ym2149) (k : ℕ) :
    (st.stepA = 0 → st.posA = 2147483648 → st.mixerNA = 65535 → st.pVolA = false →
      st.eff0.sid = false → st.eff0.drum = false →
      st.volA = ymVolumeTable.getD (st.registers.getD 8 0 % 16) 0 →
      voiceContribA ((chipUpdate st k).2) =
        ymVolumeTable.getD (st.registers.getD 8 0 % 16) 0) ∧
    (st.stepB = 0 → st.posB = 2147483648 → st.mixerNB = 65535 → st.pVolB = false →
      st.eff1.sid = false → st.eff1.drum = false →
      st.volB = ymVolumeTable.getD (st.registers.getD 9 0 % 16) 0 →
      voiceContribB ((chipUpdate st k).2) =
        ymVolumeTable.getD (st.registers.getD 9 0 % 16) 0) ∧
    (st.stepC = 0 → st.posC = 2147483648 → st.mixerNC = 65535 → st.pVolC = false →
      st.eff2.sid = false → st.eff2.drum = false →
      st.volC = ymVolumeTable.getD (st.registers.getD 10 0 % 16) 0 →
      voiceContribC ((chipUpdate st k).2) =
        ymVolumeTable.getD (st.registers.getD 10 0 % 16) 0) :=
  ⟨fun h1 h2 h3 h4 h5 h6 h7 =>
    c6_aux _ (ymVolumeTable_bound _).1 (ymVolumeTable_bound _).2 k st h1 h2 h3 h4 h5 h6 h7,
   fun h1 h2 h3 h4 h5 h6 h7 =>
    c6_auxB _ (ymVolumeTable_bound _).1 (ymVolumeTable_bound _).2 k st h1 h2 h3 h4 h5 h6 h7,
   fun h1 h2 h3 h4 h5 h6 h7 =>
    c6_auxC _ (ymVolumeTable_bound _).1 (ymVolumeTable_bound _).2 k st h1 h2 h3 h4 h5 h6 h7⟩

set_option maxRecDepth 100000 in
/-- C6 witness: period 2 with volume register 15 and the default mixer
(noise disabled) on each voice in turn: after two samples the voice's
contribution is still `volume_table[15] = 10922`. -/
theorem c6_pinned_witness :
    voiceContribA ((chipUpdate
      (writeRegister (writeRegister (newYm2149Ex 2000000 1 44100) 0 2) 8 15) 2).2) =
      10922 ∧
    voiceContribB ((chipUpdate
      (writeRegister (writeRegister (newYm2149Ex 2000000 1 44100) 2 2) 9 15) 2).2) =
      10922 ∧
    voiceContribC ((chipUpdate
      (writeRegister (writeRegister (newYm2149Ex 2000000 1 44100) 4 2) 10 15) 2).2) =
      10922 := by
  refine ⟨?_, ?_, ?_⟩
  · have h := (c6_pinned_constant_contribution
      (writeRegister (writeRegister (newYm2149Ex 2000000 1 44100) 0 2) 8 15) 2).1
      (by decide) (by decide) (by decide) (by decide) (by decide) (by decide) (by decide)
    rw [h]
    decide
  · have h := (c6_pinned_constant_contribution
      (writeRegister (writeRegister (newYm2149Ex 2000000 1 44100) 2 2) 9 15) 2).2.1
      (by decide) (by decide) (by decide) (by decide) (by decide) (by decide) (by decide)
    rw [h]
    decide
  · have h := (c6_pinned_constant_contribution
      (writeRegister (writeRegister (newYm2149Ex 2000000 1 44100) 4 2) 10 15) 2).2.2
      (by decide) (by decide) (by decide) (by decide) (by decide) (by decide) (by decide)
    rw [h]
    decide

/- ======================================================================
   C5 — length of the decompressed output.
   The decoder's output buffer always keeps its 8192-byte length (every
   write is an in-place `set`), and the driver emits exactly
   `min origSize 8192` bytes per round, so a successful decode returns
   exactly `OriginalSize` bytes; the stored (`-lh0-`) path checks the
   length explicitly and errors on truncation.
   ====================================================================== -/

theorem fillbufLoop_out (f : ℕ) : ∀ n st, (fillbufLoop f n st).2.outbuf = st.outbuf := by
  induction f with
  | zero => intro n st; rfl
  | succ f ih =>
    intro n st
    unfold fillbufLoop
    dsimp only
    repeat' split
    all_goals first
      | rfl
      | exact ih _ _

theorem fillbuf_out (st : Lzh) (n : ℕ) : (fillbuf st n).outbuf = st.outbuf := by
  unfold fillbuf
  dsimp only
  exact fillbufLoop_out _ _ _

theorem getbits_out (st : Lzh) (n : ℕ) : (getbits st n).2.outbuf = st.outbuf :=
  fillbuf_out _ _

theorem init_getbits_out (st : Lzh) : (init_getbits st).outbuf = st.outbuf :=
  fillbuf_out _ _

theorem ptLoop_out (n : ℕ) (isp : ℤ) (f : ℕ) :
    ∀ i st r, ptLoop n isp f i st = some r → r.2.outbuf = st.outbuf := by
  induction f with
  | zero =>
    intro i st r h
    simp only [ptLoop] at h
    cases h
    rfl
  | succ f ih =>
    intro i st r h
    simp only [ptLoop] at h
    repeat' split at h
    all_goals first
      | (cases h <;> rfl)
      | (rw [ih _ _ _ h]; simp [getbits, fillbuf_out])

theorem clLoop_out (n : ℕ) (f : ℕ) :
    ∀ i st r, clLoop n f i st = some r → r.2.outbuf = st.outbuf := by
  induction f with
  | zero =>
    intro i st r h
    simp only [clLoop] at h
    cases h
    rfl
  | succ f ih =>
    intro i st r h
    simp only [clLoop] at h
    repeat' split at h
    all_goals first
      | (cases h <;> rfl)
      | (rw [ih _ _ _ h]; simp [getbits, fillbuf_out])

theorem read_pt_len_out (st : Lzh) (nn nbit : ℕ) (isp : ℤ) (r : Lzh)
    (h : read_pt_len st nn nbit isp = some r) : r.outbuf = st.outbuf := by
  simp only [read_pt_len] at h
  split at h
  · cases h
    simp [getbits, fillbuf_out]
  · split at h
    · exact absurd h (by simp)
    · rename_i i st2 heq
      cases h
      have h2 := ptLoop_out _ _ _ _ _ _ heq
      simp only [getbits] at h2
      rw [fillbuf_out] at h2
      exact h2

theorem read_c_len_out (st : Lzh) (r : Lzh)
    (h : read_c_len st = some r) : r.outbuf = st.outbuf := by
  simp only [read_c_len] at h
  split at h
  · cases h
    simp [getbits, fillbuf_out]
  · split at h
    · exact absurd h (by simp)
    · rename_i i st2 heq
      cases h
      have h2 := clLoop_out _ _ _ _ _ heq
      simp only [getbits] at h2
      rw [fillbuf_out] at h2
      exact h2

theorem decode_c_out (st : Lzh) (r : ℕ × Lzh)
    (h : decode_c st = some r) : r.2.outbuf = st.outbuf := by
  simp only [decode_c] at h
  split at h
  · exact absurd h (by simp)
  · rename_i st1 heq
    split at h
    · exact absurd h (by simp)
    · rename_i j hj
      cases h
      rw [fillbuf_out]
      split at heq
      · split at heq
        · exact absurd heq (by simp)
        · rename_i stA hA
          split at heq
          · exact absurd heq (by simp)
          · rename_i stB hB
            split at heq
            · exact absurd heq (by simp)
            · rename_i stC hC
              cases heq
              show stC.outbuf = st.outbuf
              have h1 := read_pt_len_out _ _ _ _ _ hA
              simp only [getbits] at h1
              rw [fillbuf_out] at h1
              exact ((read_pt_len_out _ _ _ _ _ hC).trans
                ((read_c_len_out _ _ hB).trans h1))
      · cases heq
        rfl

theorem decode_p_out (st : Lzh) (r : ℕ × Lzh)
    (h : decode_p st = some r) : r.2.outbuf = st.outbuf := by
  simp only [decode_p] at h
  split at h
  · exact absurd h (by simp)
  · rename_i j hj
    split at h
    · cases h
      simp [getbits, fillbuf_out]
    · cases h
      simp [fillbuf_out]

theorem dbCopy_outlen (count : ℕ) (f : ℕ) :
    ∀ r st, (dbCopy count f r st).1.outbuf.length = st.outbuf.length := by
  induction f with
  | zero => intro r st; rfl
  | succ f ih =>
    intro r st
    unfold dbCopy
    dsimp only
    split
    · rw [ih _ _]
      exact List.length_set _ _ _
    · rfl

theorem dbLoop_outlen (count : ℕ) (f : ℕ) :
    ∀ r st st', dbLoop count f r st = some st' → st'.outbuf.length = st.outbuf.length := by
  induction f with
  | zero =>
    intro r st st' h
    simp only [dbLoop] at h
    split at h
    · cases h; rfl
    · exact absurd h (by simp)
  | succ f ih =>
    intro r st st' h
    simp only [dbLoop] at h
    split at h
    · split at h
      · exact absurd h (by simp)
      · rename_i c st1 hc
        split at h
        · rw [ih _ _ _ h]
          show (st1.outbuf.set r c).length = st.outbuf.length
          rw [List.length_set]
          exact congrArg List.length (decode_c_out _ _ hc)
        · split at h
          · exact absurd h (by simp)
          · rename_i p st2 hp
            rw [ih _ _ _ h, dbCopy_outlen]
            show st2.outbuf.length = st.outbuf.length
            exact congrArg List.length
              ((decode_p_out _ _ hp).trans (decode_c_out _ _ hc))
    · cases h; rfl

theorem decodeBuffer_outlen (st : Lzh) (count : ℕ) (st' : Lzh)
    (h : decodeBuffer st count = some st') : st'.outbuf.length = st.outbuf.length := by
  simp only [decodeBuffer] at h
  rw [dbLoop_outlen _ _ _ _ _ h, dbCopy_outlen]

theorem decodeLoop_length (orig : ℕ) :
    ∀ st out st' out', st.outbuf.length = 8192 →
      decodeLoop orig st out = some (st', out') →
      out'.length = out.length + orig := by
  induction orig using Nat.strong_induction_on with
  | _ orig ih =>
    intro st out st' out' hlen h
    cases orig with
    | zero =>
      simp only [decodeLoop] at h
      cases h
      simp
    | succ o =>
      simp only [decodeLoop] at h
      split at h
      · exact absurd h (by simp)
      · rename_i st2 hdb
        have hlen2 : st2.outbuf.length = 8192 := by
          rw [decodeBuffer_outlen _ _ _ hdb, hlen]
        have hrec := ih (o + 1 - min (o + 1) 8192) (by omega) _ _ _ _ hlen2 h
        rw [hrec, List.length_append, List.length_take, hlen2]
        omega

theorem initState_outlen (comp : List ℕ) :
    ({ init_getbits (lzhInit comp) with blocksize := 0, decode_j := 0 } : Lzh).outbuf.length
      = 8192 := by
  have h1 : ({ init_getbits (lzhInit comp) with blocksize := 0, decode_j := 0 } : Lzh).outbuf
      = (init_getbits (lzhInit comp)).outbuf := rfl
  rw [h1, init_getbits_out]
  exact List.length_replicate _ _

theorem decodeTop_length (comp : List ℕ) (orig : ℕ) (out : List ℕ)
    (h : decodeTop comp orig = some out) : out.length = orig := by
  simp only [decodeTop] at h
  split at h
  · exact absurd h (by simp)
  · rename_i r hr
    cases h
    have hl := decodeLoop_length orig _ [] r.1 r.2 (initState_outlen comp) hr
    simpa using hl

/-- C5: for every input whose LZH header parses, a successful
`Decompress` returns exactly `OriginalSize` bytes, and a stored
(`-lh0-`) input carrying fewer data bytes than `OriginalSize` is
rejected with the incomplete-data error instead of returning a short
slice.  (The Huffman path always emits exactly `OriginalSize` bytes:
the driver loop writes `min remaining 8192` bytes per round from the
always-8192-byte window.) -/
theorem c5_decompress_length (data method : List ℕ) (packed orig : ℕ)
    (body : List ℕ) (out : List ℕ)
    (hparse : lzhParseHeader data = .ok (method, packed, orig, body)) :
    (lzhDecompress data = .ok out → out.length = orig) ∧
    (method = mLh0 → body.length < orig →
      lzhDecompress data = .error .incompleteData) := by
  have hd : lzhDecompress data =
      (if method = mLh0 then
        if min orig body.length ≠ orig then .error .incompleteData
        else .ok (body.take orig)
      else
        match decodeTop (body.take (min packed body.length)) orig with
        | none => .error .corrupt
        | some out => .ok out) := by
    unfold lzhDecompress
    rw [hparse]
  constructor
  · intro hok
    rw [hd] at hok
    split at hok
    · split at hok
      · exact absurd hok (by simp)
      · rename_i hmin
        cases hok
        rw [List.length_take]
        omega
    · split at hok
      · exact absurd hok (by simp)
      · rename_i o ho
        cases hok
        exact decodeTop_length _ _ _ ho
  · intro hm hlt
    rw [hd, if_pos hm, if_pos (by omega : min orig body.length ≠ orig)]

/-- C5 witness: a 17-byte stored (`-lh0-`) archive with
`OriginalSize = 2` decompresses to exactly 2 bytes, and the same bytes
with `OriginalSize = 3` are rejected as incomplete. -/
theorem c5_decompress_length_witness :
    lzhDecompress [13, 0, 45, 108, 104, 48, 45, 2, 0, 0, 0, 2, 0, 0, 0, 65, 66] =
        .ok [65, 66] ∧
    ([65, 66] : List ℕ).length = 2 ∧
    lzhDecompress [13, 0, 45, 108, 104, 48, 45, 2, 0, 0, 0, 3, 0, 0, 0, 65, 66] =
      .error .incompleteData :=
  ⟨by rfl,
   (c5_decompress_length [13, 0, 45, 108, 104, 48, 45, 2, 0, 0, 0, 2, 0, 0, 0, 65, 66]
      mLh0 2 2 [65, 66] [65, 66] (by rfl)).1 (by rfl),
   (c5_decompress_length [13, 0, 45, 108, 104, 48, 45, 2, 0, 0, 0, 3, 0, 0, 0, 65, 66]
      mLh0 2 3 [65, 66] [] (by rfl)).2 rfl (by decide)⟩
